import Mathlib

/-!
# HeapReserve: a shallow embedding of `heapReserve.cpp`

The program is a sequence of calls into the operating system.  The operating
system is modelled as a deterministic oracle that answers every call from the
history of the calls made so far; the program is a function from an oracle to
the trace of calls it makes, the text it prints and the way it ends.
-/

namespace HeapReserve

/-! ## Platform -/

/-- Target architecture: it fixes the width of `size_t`. -/
inductive Arch where
  | x86
  | x64
  deriving DecidableEq, Repr

/-- Width in bits of `size_t` / `SIZE_T`. -/
def Arch.SIZE_BITS : Arch → Nat
  | .x86 => 32
  | .x64 => 64

/-- The heap flag constants that `heapReserve.cpp` takes from `<Windows.h>`
and does not define itself, with the target architecture.  They are a
parameter of the model. -/
structure Platform where
  HEAP_NO_SERIALIZE : Nat
  HEAP_GROWABLE : Nat
  HEAP_GENERATE_EXCEPTIONS : Nat
  HEAP_ZERO_MEMORY : Nat
  HEAP_REALLOC_IN_PLACE_ONLY : Nat
  HEAP_TAIL_CHECKING_ENABLED : Nat
  HEAP_FREE_CHECKING_ENABLED : Nat
  HEAP_DISABLE_COALESCE_ON_FREE : Nat
  HEAP_CREATE_ALIGN_16 : Nat
  HEAP_CREATE_ENABLE_TRACING : Nat
  HEAP_CREATE_ENABLE_EXECUTE : Nat
  arch : Arch

/-- The values the Windows SDK header `winnt.h` gives these constants, on a
64-bit target. -/
def winnt : Platform where
  HEAP_NO_SERIALIZE := 0x00000001
  HEAP_GROWABLE := 0x00000002
  HEAP_GENERATE_EXCEPTIONS := 0x00000004
  HEAP_ZERO_MEMORY := 0x00000008
  HEAP_REALLOC_IN_PLACE_ONLY := 0x00000010
  HEAP_TAIL_CHECKING_ENABLED := 0x00000020
  HEAP_FREE_CHECKING_ENABLED := 0x00000040
  HEAP_DISABLE_COALESCE_ON_FREE := 0x00000080
  HEAP_CREATE_ALIGN_16 := 0x00010000
  HEAP_CREATE_ENABLE_TRACING := 0x00020000
  HEAP_CREATE_ENABLE_EXECUTE := 0x00040000
  arch := .x64

/-! ## Constants of the source -/

/-- Source: `constexpr size_t TestMaxAlloc = 1024 * 1024 * 200;` -/
def TestMaxAlloc : Nat := 1024 * 1024 * 200

/-- Source: `constexpr size_t HeapReserveSize = 1024 * 1024 * 150;` -/
def HeapReserveSize : Nat := 1024 * 1024 * 150

/-- Source: `constexpr size_t AllocAtIteration = 300;` -/
def AllocAtIteration : Nat := 300

/-- Source: `#define HEAP_CLASS_1 0x00001000 // private heap` -/
def HEAP_CLASS_1 : Nat := 0x00001000

/-- Source: `#define HEAP_CLASS_MASK 0x0000F000` -/
def HEAP_CLASS_MASK : Nat := 0x0000F000

/-- Source: `#define HEAP_CREATE_VALID_MASK (HEAP_NO_SERIALIZE | ... )`, the
twelve terms in the order of the source. -/
def HEAP_CREATE_VALID_MASK (p : Platform) : Nat :=
  p.HEAP_NO_SERIALIZE |||
  p.HEAP_GROWABLE |||
  p.HEAP_GENERATE_EXCEPTIONS |||
  p.HEAP_ZERO_MEMORY |||
  p.HEAP_REALLOC_IN_PLACE_ONLY |||
  p.HEAP_TAIL_CHECKING_ENABLED |||
  p.HEAP_FREE_CHECKING_ENABLED |||
  p.HEAP_DISABLE_COALESCE_ON_FREE |||
  HEAP_CLASS_MASK |||
  p.HEAP_CREATE_ALIGN_16 |||
  p.HEAP_CREATE_ENABLE_TRACING |||
  p.HEAP_CREATE_ENABLE_EXECUTE

/-- Truncation to a 32-bit `DWORD` / `ULONG`. -/
def toDWORD (x : Nat) : Nat := x % 2 ^ 32

/-- The value `FALSE` of `<Windows.h>`. -/
def FALSE : Nat := 0

/-- The value `TRUE` of `<Windows.h>`. -/
def TRUE : Nat := 1

/-! ## The operating system as an oracle -/

/-- The two entry points the program looks up in `ntdll` by name. -/
inductive Symbol where
  | RtlCreateHeap
  | RtlDestroyHeap
  deriving DecidableEq, Repr

/-- The calls the program makes into the operating system and the C runtime.
Pointers and handles are numbers, `0` is the null pointer. -/
inductive Call where
  /-- The call `GetModuleHandleW(L"ntdll")`. -/
  | GetModuleHandleW_ntdll
  /-- The call `GetProcAddress(hModule, name)` for one of the two names. -/
  | GetProcAddress (hModule : Nat) (sym : Symbol)
  /-- The call `GetLastError()`. -/
  | GetLastError
  /-- The public `HeapCreate(flOptions, dwInitialSize, dwMaximumSize)` -/
  | HeapCreate (flOptions dwInitialSize dwMaximumSize : Nat)
  /-- The public `HeapDestroy(hHeap)` -/
  | HeapDestroy (hHeap : Nat)
  /-- The call `HeapAlloc(hHeap, dwFlags, dwBytes)`. -/
  | HeapAlloc (hHeap dwFlags dwBytes : Nat)
  /-- A call through the pointer resolved for `RtlCreateHeap` -/
  | RtlCreateHeap (Flags HeapBase ReserveSize CommitSize Lock Parameters : Nat)
  /-- A call through the pointer resolved for `RtlDestroyHeap` -/
  | RtlDestroyHeap (HeapHandle : Nat)
  /-- The call `getchar()`. -/
  | getchar
  deriving DecidableEq, Repr

/-- One call together with the value it returned. -/
structure Event where
  call : Call
  ret : Nat
  deriving DecidableEq, Repr

/-- The operating system: the value each call returns, given the history. -/
abbrev OS := List Event → Call → Nat

/-- One item written to `std::cout`. -/
inductive OutItem where
  | str (s : String)
  | ptr (p : Nat)
  | int (v : Int)
  deriving DecidableEq, Repr

/-- The observable state of a run: the calls made so far, oldest first, and
the items printed so far. -/
structure World where
  trace : List Event
  out : List OutItem
  deriving DecidableEq, Repr

/-- The state at the start of a run. -/
def World.init : World := ⟨[], []⟩

/-- Perform one call: ask the oracle and record the event. -/
def sys (os : OS) (c : Call) (w : World) : Nat × World :=
  (os w.trace c, { w with trace := w.trace ++ [⟨c, os w.trace c⟩] })

/-- Write items to `std::cout`. -/
def print (items : List OutItem) (w : World) : World :=
  { w with out := w.out ++ items }

/-! ## Exceptions -/

/-- An exception object, with its C++ type.  `GetLastError()` returns a
`DWORD`, which is `unsigned long`: `throw GetLastError();` throws a `dword`. -/
inductive Thrown where
  | int (v : Int)
  | dword (v : Nat)
  | runtime_error (what : String)
  deriving DecidableEq, Repr

/-- Source: `throw GetLastError();` -/
def throwGetLastError {α : Type} (os : OS) (w : World) : Except Thrown α × World :=
  (.error (.dword (sys os .GetLastError w).1), (sys os .GetLastError w).2)

/-! ## namespace Rtl -/

namespace Rtl

/-- The flag arithmetic of `Rtl::HeapCreate` (source lines 88 to 91):
`flOptions &= HEAP_CREATE_VALID_MASK; flOptions |= HEAP_CLASS_1;
if (growable) flOptions |= HEAP_GROWABLE;` on a `DWORD`. -/
def HeapCreate.flags (p : Platform) (flOptions : Nat) (growable : Bool) : Nat :=
  let flOptions := toDWORD (flOptions &&& HEAP_CREATE_VALID_MASK p)
  let flOptions := toDWORD (flOptions ||| HEAP_CLASS_1)
  if growable then toDWORD (flOptions ||| p.HEAP_GROWABLE) else flOptions

/-- Source: `HANDLE Rtl::HeapCreate(DWORD flOptions, SIZE_T dwInitialSize,
SIZE_T reserveSize, bool growable)`. -/
def HeapCreate (p : Platform) (os : OS) (flOptions dwInitialSize reserveSize : Nat)
    (growable : Bool) (w : World) : Except Thrown Nat × World :=
  let (ntdll, w) := sys os .GetModuleHandleW_ntdll w
  if ntdll = 0 then throwGetLastError os w
  else
    let (createHeap, w) := sys os (.GetProcAddress ntdll .RtlCreateHeap) w
    if createHeap = 0 then throwGetLastError os w
    else
      let flOptions := HeapCreate.flags p flOptions growable
      let (heap, w) :=
        sys os (.RtlCreateHeap flOptions 0 reserveSize dwInitialSize 0 0) w
      if heap = 0 then throwGetLastError os w
      else (.ok heap, w)

/-- Source: `BOOL NTAPI Rtl::HeapDestroy(HANDLE heap)`. -/
def HeapDestroy (os : OS) (heap : Nat) (w : World) : Except Thrown Nat × World :=
  let (ntdll, w) := sys os .GetModuleHandleW_ntdll w
  if ntdll = 0 then throwGetLastError os w
  else
    let (destroyHeap, w) := sys os (.GetProcAddress ntdll .RtlDestroyHeap) w
    if destroyHeap = 0 then throwGetLastError os w
    else
      let (_, w) := sys os (.RtlDestroyHeap heap) w
      let (gle, w) := sys os .GetLastError w
      (.ok (if gle ≠ 0 then FALSE else TRUE), w)

end Rtl

/-! ## ScopedHeapHandle -/

/-- The function a `HeapDestroyFunctor` holds: `&HeapDestroy` or
`&Rtl::HeapDestroy`. -/
inductive DtorFuncPtr where
  | HeapDestroy
  | Rtl_HeapDestroy
  deriving DecidableEq, Repr

/-- Source: `HeapDestroyFunctor::operator()(HANDLE heap)`, `return dtor(heap);`. -/
def HeapDestroyFunctor (os : OS) (dtor : DtorFuncPtr) (heap : Nat) (w : World) :
    Except Thrown Nat × World :=
  match dtor with
  | .HeapDestroy => (.ok (sys os (.HeapDestroy heap) w).1, (sys os (.HeapDestroy heap) w).2)
  | .Rtl_HeapDestroy => Rtl.HeapDestroy os heap w

/-- Source: `ScopedHeapHandle`, a `std::unique_ptr` over the handle with a
`HeapDestroyFunctor` as deleter. -/
structure ScopedHeapHandle where
  get : Nat
  dtor : DtorFuncPtr
  deriving DecidableEq, Repr

/-- The release step shared by `~unique_ptr()` and `unique_ptr::reset()`: the
deleter runs only on a non-null pointer. -/
def ScopedHeapHandle.release (os : OS) (h : ScopedHeapHandle) (w : World) :
    Except Thrown Unit × World :=
  if h.get = 0 then (.ok (), w)
  else
    match HeapDestroyFunctor os h.dtor h.get w with
    | (.ok _, w) => (.ok (), w)
    | (.error e, w) => (.error e, w)

/-- The destructors of a list of handles, run in the order given.  They are
`noexcept`: the result is `false` when a deleter throws, which calls
`std::terminate`. -/
def destroyAll (os : OS) : List ScopedHeapHandle → World → Bool × World
  | [], w => (true, w)
  | h :: rest, w =>
    match h.release os w with
    | (.ok _, w) => destroyAll os rest w
    | (.error _, w) => (false, w)

/-! ## main -/

/-- How a run of `main` ends: it returns an exit code, or `std::terminate`
is called. -/
inductive Outcome where
  | returned (code : Int)
  | terminate
  deriving DecidableEq, Repr

/-- The inner loop of the allocation loop (source lines 160 to 162):
`for (auto &heap : heaps) if (!HeapAlloc(heap.get(), 0, AllocAtIteration))
throw std::runtime_error("allocation failed!");` -/
def allocRound (os : OS) (B : Nat) : List ScopedHeapHandle → World → Except Thrown Unit × World
  | [], w => (.ok (), w)
  | heap :: rest, w =>
    if (sys os (.HeapAlloc heap.get 0 B) w).1 = 0 then
      (.error (.runtime_error "allocation failed!"), (sys os (.HeapAlloc heap.get 0 B) w).2)
    else allocRound os B rest (sys os (.HeapAlloc heap.get 0 B) w).2

/-- How the allocation loop is left: normally or by an exception, with the
value of `sumSize` at that moment. -/
structure LoopExit where
  result : Except Thrown Unit
  sumSize : Nat
  world : World

/-- The allocation loop (source line 159):
`for (size_t sumSize = 0; sumSize < T; sumSize += B)` around `allocRound`,
with `sumSize` a `size_t` of `bits` bits.  `fuel` bounds the number of times
the loop condition is evaluated; `none` means the fuel ran out. -/
def allocLoop (bits T B : Nat) (os : OS) (heaps : List ScopedHeapHandle) :
    Nat → Nat → World → Option LoopExit
  | 0, _, _ => none
  | fuel + 1, sumSize, w =>
    if sumSize < T then
      match allocRound os B heaps w with
      | (.error e, w) => some ⟨.error e, sumSize, w⟩
      | (.ok _, w) => allocLoop bits T B os heaps fuel ((sumSize + B) % 2 ^ bits) w
    else some ⟨.ok (), sumSize, w⟩

/-- The handlers of the function-try-block of `main`, tried in order:
`catch (const int &gle)` matches only an exception of type `int`,
`catch (const std::exception &ex)` matches `std::runtime_error`.  The result
is `none` when no handler matches. -/
def handlers : Thrown → World → Option (Int × World)
  | .int gle, w =>
    some (-1, print [.str "Exception occurred: GLE: ", .int gle, .str "\n"] w)
  | .runtime_error what, w =>
    some (-1, print [.str "Exception occurred:\n", .str what, .str "\n"] w)
  | .dword _, _ => none

/-- An exception leaves the try block of `main` while the handles `live`
(in order of construction) exist.  With a matching handler the stack is
unwound, which destroys the handles in reverse order, and the handler runs;
with none, `std::terminate` is called (whether the stack is unwound before
that is implementation-defined; here it is not). -/
def raise (os : OS) (e : Thrown) (live : List ScopedHeapHandle) (w : World) :
    Outcome × World :=
  match handlers e w with
  | none => (.terminate, w)
  | some _ =>
    match destroyAll os live.reverse w with
    | (false, w) => (.terminate, w)
    | (true, w) =>
      match handlers e w with
      | some (code, w) => (.returned code, w)
      | none => (.terminate, w)

/-- Source: `int main()`.  `none` means the allocation loop ran out of
fuel. -/
def main (p : Platform) (os : OS) (fuel : Nat) : Option (Outcome × World) :=
  let w := World.init
  let (h0, w) := sys os (.HeapCreate 0 0 0) w
  let heap0 : ScopedHeapHandle := ⟨h0, .HeapDestroy⟩
  match Rtl.HeapCreate p os 0 0 HeapReserveSize true w with
  | (.error e, w) => some (raise os e [heap0] w)
  | (.ok h1, w) =>
    let heap1 : ScopedHeapHandle := ⟨h1, .Rtl_HeapDestroy⟩
    let heaps := [heap0, heap1]
    let w := print [.str "Heaps:\n"] w
    let w := heaps.foldl
      (fun w heap => print [.str "\t> HEAP: ", .ptr heap.get, .str "\n"] w) w
    let w := print [.str "All heaps created\nPress any key...\n"] w
    let (_, w) := sys os .getchar w
    match allocLoop p.arch.SIZE_BITS TestMaxAlloc AllocAtIteration os heaps fuel 0 w with
    | none => none
    | some ⟨.error e, _, w⟩ => some (raise os e heaps w)
    | some ⟨.ok _, _, w⟩ =>
      -- heaps[0].reset();
      match heap0.release os w with
      | (.error _, w) => some (.terminate, w)
      | (.ok _, w) =>
        let heap0 : ScopedHeapHandle := ⟨0, .HeapDestroy⟩
        let w := print [.str "1-st heap destroyed\nPress any key to exit...\n"] w
        let (_, w) := sys os .getchar w
        -- return 0; the array is destroyed, last element first
        match destroyAll os [heap1, heap0] w with
        | (true, w) => some (.returned 0, w)
        | (false, w) => some (.terminate, w)

/-! ## Reading a trace -/

/-- The event is an allocation request on handle `h`. -/
def Event.isAllocOn (h : Nat) (e : Event) : Bool :=
  match e.call with
  | .HeapAlloc hHeap _ _ => hHeap == h
  | _ => false

/-- The event is a destroy call on handle `h`, public or lower-level. -/
def Event.isDestroyOf (h : Nat) (e : Event) : Bool :=
  match e.call with
  | .HeapDestroy hHeap => hHeap == h
  | .RtlDestroyHeap hHeap => hHeap == h
  | _ => false

/-- The event is a call of the lower-level creation routine. -/
def Event.isRtlCreateHeap (e : Event) : Bool :=
  match e.call with
  | .RtlCreateHeap _ _ _ _ _ _ => true
  | _ => false

/-- The event is a call of the lower-level destroy routine. -/
def Event.isRtlDestroyHeap (e : Event) : Bool :=
  match e.call with
  | .RtlDestroyHeap _ => true
  | _ => false

/-- No allocation and no destroy call is made on a handle after a destroy
call on that handle. -/
def noUseAfterDestroy : List Event → Bool
  | [] => true
  | e :: rest =>
    (match e.call with
      | .HeapDestroy h => rest.all fun e2 => !(e2.isAllocOn h || e2.isDestroyOf h)
      | .RtlDestroyHeap h => rest.all fun e2 => !(e2.isAllocOn h || e2.isDestroyOf h)
      | _ => true) && noUseAfterDestroy rest

/-- The bytes handed out by the successful allocations on handle `h`. -/
def allocatedBytes (h : Nat) : List Event → Nat
  | [] => 0
  | e :: rest =>
    (match e.call with
      | .HeapAlloc hHeap _ n => if hHeap = h ∧ e.ret ≠ 0 then n else 0
      | _ => 0) + allocatedBytes h rest

/-- The events `good` are `k` complete rounds of the allocation loop: in each
round one request of `B` bytes with flags 0 on `h0` and then one on `h1`, and
every request returned a block. -/
def CompleteRounds (h0 h1 B k : Nat) (good : List Event) : Prop :=
  good.map Event.call =
      (List.replicate k [Call.HeapAlloc h0 0 B, Call.HeapAlloc h1 0 B]).flatten ∧
    ∀ e ∈ good, e.ret ≠ 0

/-- The number of allocations on handle `h` that returned a block. -/
def successfulAllocs (h : Nat) (tr : List Event) : Nat :=
  tr.countP fun e => e.isAllocOn h && e.ret != 0

/-- The event is an allocation request, on any handle. -/
def Event.isAlloc (e : Event) : Bool :=
  match e.call with
  | .HeapAlloc _ _ _ => true
  | _ => false

/-- The event is a destroy call, public or lower-level, on any handle. -/
def Event.isDestroy (e : Event) : Bool :=
  match e.call with
  | .HeapDestroy _ => true
  | .RtlDestroyHeap _ => true
  | _ => false

/-- The events of a run of `main` up to the allocation loop, when both heaps
are set up: the public creation call, the two lookups, the lower-level
creation call and the first `getchar`. -/
def setupEvents (p : Platform) (h0 ntdll fn h1 c : Nat) : List Event :=
  [⟨.HeapCreate 0 0 0, h0⟩, ⟨.GetModuleHandleW_ntdll, ntdll⟩,
    ⟨.GetProcAddress ntdll .RtlCreateHeap, fn⟩,
    ⟨.RtlCreateHeap (Rtl.HeapCreate.flags p 0 true) 0 HeapReserveSize 0 0 0, h1⟩,
    ⟨.getchar, c⟩]

/-- The events of a successful `Rtl::HeapDestroy` on `h1`. -/
def rtlDestroyEvents (ntdll fn h1 r gle : Nat) : List Event :=
  [⟨.GetModuleHandleW_ntdll, ntdll⟩, ⟨.GetProcAddress ntdll .RtlDestroyHeap, fn⟩,
    ⟨.RtlDestroyHeap h1, r⟩, ⟨.GetLastError, gle⟩]

/-- The events of releasing the first handle: the public destroy call, and
nothing on a null handle. -/
def stdDestroyEvents (h0 r : Nat) : List Event :=
  if h0 = 0 then [] else [⟨.HeapDestroy h0, r⟩]

/-- What `main` has printed when the allocation loop starts. -/
def setupOut (h0 h1 : Nat) : List OutItem :=
  [.str "Heaps:\n", .str "\t> HEAP: ", .ptr h0, .str "\n", .str "\t> HEAP: ", .ptr h1,
    .str "\n", .str "All heaps created\nPress any key...\n"]

/-- The events of an `Rtl::HeapDestroy` that throws: the module lookup
returned null, or the lookup of `RtlDestroyHeap` did; then `GetLastError()`. -/
def failedDestroyEvents (d : List Event) : Prop :=
  (∃ gle, d = [⟨.GetModuleHandleW_ntdll, 0⟩, ⟨.GetLastError, gle⟩]) ∨
  (∃ ntdll gle, ntdll ≠ 0 ∧ d = [⟨.GetModuleHandleW_ntdll, ntdll⟩,
    ⟨.GetProcAddress ntdll .RtlDestroyHeap, 0⟩, ⟨.GetLastError, gle⟩])

/-- The last round of a loop that stopped on a failed allocation: the request
on the first heap returned null, or it returned a block and the request on the
second heap returned null. -/
def failedRound (h0 h1 B : Nat) (tail : List Event) : Prop :=
  tail = [⟨.HeapAlloc h0 0 B, 0⟩] ∨
  ∃ r, r ≠ 0 ∧ tail = [⟨.HeapAlloc h0 0 B, r⟩, ⟨.HeapAlloc h1 0 B, 0⟩]

/-- What the handler for `std::exception` prints for the allocation failure. -/
def failureOut : List OutItem :=
  [.str "Exception occurred:\n", .str "allocation failed!", .str "\n"]

/-- The number of allocation requests made on handle `h`. -/
def allocRequests (h : Nat) (tr : List Event) : Nat :=
  tr.countP (Event.isAllocOn h)

/-- The events `new`, appended to the history `tr`, carry the answers of the
oracle: each returned value is what `os` answers at that point. -/
def Consistent (os : OS) : List Event → List Event → Prop
  | _, [] => True
  | tr, e :: rest => e.ret = os tr e.call ∧ Consistent os (tr ++ [e]) rest

/-! ## Example oracles -/

/-- An operating system in which every call succeeds: the module and both
symbols resolve, both heaps are created with distinct handles, every
allocation returns a block and the last error is always zero. -/
def osOk : OS := fun _ c =>
  match c with
  | .GetModuleHandleW_ntdll => 0x7FF0
  | .GetProcAddress _ .RtlCreateHeap => 0x7FF1
  | .GetProcAddress _ .RtlDestroyHeap => 0x7FF2
  | .GetLastError => 0
  | .HeapCreate _ _ _ => 0x10000
  | .HeapDestroy _ => 1
  | .HeapAlloc _ _ _ => 0x30000
  | .RtlCreateHeap _ _ _ _ _ _ => 0x20000
  | .RtlDestroyHeap _ => 1
  | .getchar => 10

/-- The all-succeeding system, except that the last error is the stale
non-zero value 5 at every query. -/
def osLastError5 : OS := fun tr c =>
  match c with
  | .GetLastError => 5
  | _ => osOk tr c

/-- A system whose heap with handle `0x20000` is capped at `HeapReserveSize`
bytes: a request on it that would take the bytes it has handed out above the
cap returns null; everything else succeeds as in `osOk`. -/
def osReserved : OS := fun tr c =>
  match c with
  | .HeapAlloc h _ n =>
    if h = 0x20000 ∧ HeapReserveSize < allocatedBytes 0x20000 tr + n then 0 else 0x30000
  | _ => osOk tr c

/-- A system whose public `HeapCreate` fails: it returns null, and an
allocation on the null handle returns null; everything else succeeds as in
`osOk`. -/
def osNoStdHeap : OS := fun tr c =>
  match c with
  | .HeapCreate _ _ _ => 0
  | .HeapAlloc h _ _ => if h = 0 then 0 else 0x30000
  | _ => osOk tr c

/-- A system in which the reserved heap cannot be created: the creation
routine returns null and the last error is 8 (`ERROR_NOT_ENOUGH_MEMORY`). -/
def osNoReservedHeap : OS := fun tr c =>
  match c with
  | .RtlCreateHeap _ _ _ _ _ _ => 0
  | .GetLastError => 8
  | _ => osOk tr c

/-- A system in which every allocation fails and everything else succeeds. -/
def osAllocFails : OS := fun tr c =>
  match c with
  | .HeapAlloc _ _ _ => 0
  | _ => osOk tr c

/-- The run of `main` on `osAllocFails`: the first request on the first heap
returns null, the exception is caught after both heaps are destroyed. -/
def allocFailsWorld : World :=
  ⟨[⟨.HeapCreate 0 0 0, 0x10000⟩, ⟨.GetModuleHandleW_ntdll, 0x7FF0⟩,
      ⟨.GetProcAddress 0x7FF0 .RtlCreateHeap, 0x7FF1⟩,
      ⟨.RtlCreateHeap 0x1002 0 157286400 0 0 0, 0x20000⟩, ⟨.getchar, 10⟩,
      ⟨.HeapAlloc 0x10000 0 300, 0⟩,
      ⟨.GetModuleHandleW_ntdll, 0x7FF0⟩, ⟨.GetProcAddress 0x7FF0 .RtlDestroyHeap, 0x7FF2⟩,
      ⟨.RtlDestroyHeap 0x20000, 1⟩, ⟨.GetLastError, 0⟩, ⟨.HeapDestroy 0x10000, 1⟩],
    [.str "Heaps:\n", .str "\t> HEAP: ", .ptr 0x10000, .str "\n", .str "\t> HEAP: ",
      .ptr 0x20000, .str "\n", .str "All heaps created\nPress any key...\n",
      .str "Exception occurred:\n", .str "allocation failed!", .str "\n"]⟩

/-! ## Rtl::HeapCreate -/

/-- The four ways through `Rtl::HeapCreate`, each with the events it adds. -/
theorem Rtl.HeapCreate_cases (p : Platform) (os : OS)
    (flOptions dwInitialSize reserveSize : Nat) (growable : Bool) (w : World) :
    (∃ gle, Rtl.HeapCreate p os flOptions dwInitialSize reserveSize growable w =
        (.error (.dword gle),
          ⟨w.trace ++ [⟨.GetModuleHandleW_ntdll, 0⟩, ⟨.GetLastError, gle⟩], w.out⟩)) ∨
    (∃ ntdll gle, ntdll ≠ 0 ∧
      Rtl.HeapCreate p os flOptions dwInitialSize reserveSize growable w =
        (.error (.dword gle),
          ⟨w.trace ++ [⟨.GetModuleHandleW_ntdll, ntdll⟩,
            ⟨.GetProcAddress ntdll .RtlCreateHeap, 0⟩, ⟨.GetLastError, gle⟩], w.out⟩)) ∨
    (∃ ntdll fn gle, ntdll ≠ 0 ∧ fn ≠ 0 ∧
      Rtl.HeapCreate p os flOptions dwInitialSize reserveSize growable w =
        (.error (.dword gle),
          ⟨w.trace ++ [⟨.GetModuleHandleW_ntdll, ntdll⟩,
            ⟨.GetProcAddress ntdll .RtlCreateHeap, fn⟩,
            ⟨.RtlCreateHeap (Rtl.HeapCreate.flags p flOptions growable) 0 reserveSize
              dwInitialSize 0 0, 0⟩,
            ⟨.GetLastError, gle⟩], w.out⟩)) ∨
    (∃ ntdll fn heap, ntdll ≠ 0 ∧ fn ≠ 0 ∧ heap ≠ 0 ∧
      Rtl.HeapCreate p os flOptions dwInitialSize reserveSize growable w =
        (.ok heap,
          ⟨w.trace ++ [⟨.GetModuleHandleW_ntdll, ntdll⟩,
            ⟨.GetProcAddress ntdll .RtlCreateHeap, fn⟩,
            ⟨.RtlCreateHeap (Rtl.HeapCreate.flags p flOptions growable) 0 reserveSize
              dwInitialSize 0 0, heap⟩], w.out⟩)) := by
  simp only [Rtl.HeapCreate, sys, throwGetLastError, List.append_assoc, List.singleton_append,
    List.cons_append, List.nil_append]
  split_ifs with h1 h2 h3
  · simp only [h1]
    exact Or.inl ⟨_, rfl⟩
  · simp only [h2]
    exact Or.inr (Or.inl ⟨_, _, h1, rfl⟩)
  · simp only [h3]
    exact Or.inr (Or.inr (Or.inl ⟨_, _, _, h1, h2, rfl⟩))
  · exact Or.inr (Or.inr (Or.inr ⟨_, _, _, h1, h2, h3, rfl⟩))

/-- A set of bits inside the mask stays inside it after masking. -/
theorem and_or_inside_mask (a m c : Nat) (h : c ||| m = m) :
    ((a &&& m) ||| c) &&& m = (a &&& m) ||| c := by
  apply Nat.eq_of_testBit_eq
  intro i
  have hi := congrArg (fun x => x.testBit i) h
  simp only [Nat.testBit_or, Nat.testBit_and] at hi ⊢
  cases h1 : a.testBit i <;> cases h2 : m.testBit i <;> cases h3 : c.testBit i <;> simp_all

/-- Bits that are or-ed in are set. -/
theorem or_and_self (a c : Nat) : (a ||| c) &&& c = c := by
  apply Nat.eq_of_testBit_eq
  intro i
  simp only [Nat.testBit_or, Nat.testBit_and]
  cases a.testBit i <;> cases c.testBit i <;> rfl

/-- `HEAP_CLASS_1` lies inside `HEAP_CREATE_VALID_MASK`, through
`HEAP_CLASS_MASK`. -/
theorem HEAP_CLASS_1_inside_mask (p : Platform) :
    HEAP_CLASS_1 ||| HEAP_CREATE_VALID_MASK p = HEAP_CREATE_VALID_MASK p := by
  have hc : ∀ i, HEAP_CLASS_1.testBit i = true → HEAP_CLASS_MASK.testBit i = true := by
    intro i hi
    have h : HEAP_CLASS_1 &&& HEAP_CLASS_MASK = HEAP_CLASS_1 := by decide
    rw [← h, Nat.testBit_and] at hi
    simp only [Bool.and_eq_true] at hi
    exact hi.2
  apply Nat.eq_of_testBit_eq
  intro i
  simp only [HEAP_CREATE_VALID_MASK, Nat.testBit_or]
  cases h1 : HEAP_CLASS_1.testBit i
  · simp
  · simp [hc i h1]

/-- `HEAP_GROWABLE` lies inside `HEAP_CREATE_VALID_MASK`. -/
theorem HEAP_GROWABLE_inside_mask (p : Platform) :
    p.HEAP_GROWABLE ||| HEAP_CREATE_VALID_MASK p = HEAP_CREATE_VALID_MASK p := by
  apply Nat.eq_of_testBit_eq
  intro i
  simp only [HEAP_CREATE_VALID_MASK, Nat.testBit_or]
  cases p.HEAP_GROWABLE.testBit i <;> simp

/-- On 32-bit operands the flag arithmetic never truncates. -/
theorem Rtl.HeapCreate.flags_eq (p : Platform) (flOptions : Nat) (growable : Bool)
    (hfl : flOptions < 2 ^ 32) (hG : p.HEAP_GROWABLE < 2 ^ 32) :
    Rtl.HeapCreate.flags p flOptions growable =
      ((flOptions &&& HEAP_CREATE_VALID_MASK p) ||| HEAP_CLASS_1) |||
        (if growable then p.HEAP_GROWABLE else 0) := by
  have h1 : flOptions &&& HEAP_CREATE_VALID_MASK p < 2 ^ 32 :=
    Nat.lt_of_le_of_lt Nat.and_le_left hfl
  have hc : HEAP_CLASS_1 < 2 ^ 32 := by decide
  have h2 : (flOptions &&& HEAP_CREATE_VALID_MASK p) ||| HEAP_CLASS_1 < 2 ^ 32 :=
    Nat.or_lt_two_pow h1 hc
  have h3 : ((flOptions &&& HEAP_CREATE_VALID_MASK p) ||| HEAP_CLASS_1) ||| p.HEAP_GROWABLE
      < 2 ^ 32 := Nat.or_lt_two_pow h2 hG
  cases growable
  · simp only [Rtl.HeapCreate.flags, toDWORD, Nat.mod_eq_of_lt h1, Nat.mod_eq_of_lt h2]
    simp
  · simp only [Rtl.HeapCreate.flags, toDWORD, Nat.mod_eq_of_lt h1, Nat.mod_eq_of_lt h2,
      Nat.mod_eq_of_lt h3]
    simp

/-- Every call of the creation routine that `Rtl::HeapCreate` makes has the
computed flags and the arguments of the source. -/
theorem Rtl.HeapCreate_routine_call (p : Platform) (os : OS)
    (flOptions dwInitialSize reserveSize : Nat) (growable : Bool) (w : World) (e : Event)
    (he : e ∈ (Rtl.HeapCreate p os flOptions dwInitialSize reserveSize growable w).2.trace.drop
      w.trace.length)
    (hc : e.isRtlCreateHeap = true) :
    e.call = .RtlCreateHeap (Rtl.HeapCreate.flags p flOptions growable) 0 reserveSize
      dwInitialSize 0 0 := by
  rcases Rtl.HeapCreate_cases p os flOptions dwInitialSize reserveSize growable w with
    ⟨g, h⟩ | ⟨n, g, _, h⟩ | ⟨n, f, g, _, _, h⟩ | ⟨n, f, hp, _, _, _, h⟩ <;>
  · rw [h] at he
    simp only [List.drop_left, List.mem_cons, List.mem_singleton, List.not_mem_nil,
      or_false] at he
    rcases he with rfl | rfl | rfl | rfl <;> first | rfl | (simp [Event.isRtlCreateHeap] at hc)

/-- A flag that lies inside the mask and apart from the class bit is set after
masking and adding the class bit exactly when it was set before. -/
theorem flag_kept_iff (f m c g : Nat) (hgm : g ||| m = m) (hgc : g &&& c = 0) :
    ((f &&& m) ||| c) &&& g = g ↔ f &&& g = g := by
  constructor <;> intro h <;> apply Nat.eq_of_testBit_eq <;> intro i
  all_goals
    have h1 := congrArg (fun x => x.testBit i) h
    have h2 := congrArg (fun x => x.testBit i) hgm
    have h3 := congrArg (fun x => x.testBit i) hgc
    simp only [Nat.testBit_or, Nat.testBit_and, Nat.zero_testBit] at h1 h2 h3 ⊢
    cases hf : f.testBit i <;> cases hm : m.testBit i <;> cases hc : c.testBit i <;>
      cases hg : g.testBit i <;> simp_all

/-- C1: for every 32-bit `flOptions` and every `growable`, each call of the
lower-level creation routine made by `Rtl::HeapCreate` carries the flags
`(flOptions AND HEAP_CREATE_VALID_MASK) OR HEAP_CLASS_1`, or-ed with
`HEAP_GROWABLE` when `growable` is true; the private-heap bit `0x1000` is set
in them and they have no bit outside `HEAP_CREATE_VALID_MASK`. -/
theorem Rtl_HeapCreate_flags_passed (p : Platform) (os : OS)
    (flOptions dwInitialSize reserveSize : Nat) (growable : Bool) (w : World) (e : Event)
    (hfl : flOptions < 2 ^ 32) (hG : p.HEAP_GROWABLE < 2 ^ 32)
    (he : e ∈ (Rtl.HeapCreate p os flOptions dwInitialSize reserveSize growable w).2.trace.drop
      w.trace.length)
    (hc : e.isRtlCreateHeap = true) :
    ∃ F, e.call = .RtlCreateHeap F 0 reserveSize dwInitialSize 0 0 ∧
      F = ((flOptions &&& HEAP_CREATE_VALID_MASK p) ||| HEAP_CLASS_1) |||
        (if growable then p.HEAP_GROWABLE else 0) ∧
      F &&& 0x1000 = 0x1000 ∧
      F &&& HEAP_CREATE_VALID_MASK p = F := by
  refine ⟨_, Rtl.HeapCreate_routine_call p os flOptions dwInitialSize reserveSize growable w e
    he hc, Rtl.HeapCreate.flags_eq p flOptions growable hfl hG, ?_, ?_⟩
  · rw [Rtl.HeapCreate.flags_eq p flOptions growable hfl hG]
    have hbit : ∀ a b : Nat, ((a ||| HEAP_CLASS_1) ||| b) &&& HEAP_CLASS_1 = HEAP_CLASS_1 := by
      intro a b
      apply Nat.eq_of_testBit_eq
      intro i
      simp only [Nat.testBit_or, Nat.testBit_and]
      cases a.testBit i <;> cases b.testBit i <;> cases HEAP_CLASS_1.testBit i <;> rfl
    exact hbit _ _
  · rw [Rtl.HeapCreate.flags_eq p flOptions growable hfl hG]
    have h1 := and_or_inside_mask flOptions _ _ (HEAP_CLASS_1_inside_mask p)
    cases growable
    · simpa using h1
    · simp only [if_true]
      have h2 := HEAP_GROWABLE_inside_mask p
      apply Nat.eq_of_testBit_eq
      intro i
      have h1i := congrArg (fun x => x.testBit i) h1
      have h2i := congrArg (fun x => x.testBit i) h2
      simp only [Nat.testBit_or, Nat.testBit_and] at h1i h2i ⊢
      cases hf : flOptions.testBit i <;> cases hm : (HEAP_CREATE_VALID_MASK p).testBit i <;>
        cases hc1 : HEAP_CLASS_1.testBit i <;> cases hg : p.HEAP_GROWABLE.testBit i <;> simp_all

/-- Witness for C1: all 32 bits set in `flOptions`, `growable` false, on the
all-succeeding system with the SDK constants. -/
theorem Rtl_HeapCreate_flags_passed_witness :
    ∃ F, (⟨.RtlCreateHeap 0x7F0FF 0 HeapReserveSize 0 0 0, 0x20000⟩ : Event).call =
        .RtlCreateHeap F 0 HeapReserveSize 0 0 0 ∧
      F = ((0xFFFFFFFF &&& HEAP_CREATE_VALID_MASK winnt) ||| HEAP_CLASS_1) |||
        (if false = true then winnt.HEAP_GROWABLE else 0) ∧
      F &&& 0x1000 = 0x1000 ∧
      F &&& HEAP_CREATE_VALID_MASK winnt = F :=
  Rtl_HeapCreate_flags_passed winnt osOk 0xFFFFFFFF 0 HeapReserveSize false World.init
    ⟨.RtlCreateHeap 0x7F0FF 0 HeapReserveSize 0 0 0, 0x20000⟩ (by decide) (by decide)
    (by decide) (by rfl)

/-- C2, as stated, fails: with `flOptions = HEAP_GROWABLE` and `growable`
false, `Rtl::HeapCreate` calls the creation routine with flags `0x1002`, in
which the `HEAP_GROWABLE` bit is set. -/
theorem Rtl_HeapCreate_growable_without_growable :
    (Rtl.HeapCreate winnt osOk 0x2 0 HeapReserveSize false World.init).2.trace =
      [⟨.GetModuleHandleW_ntdll, 0x7FF0⟩, ⟨.GetProcAddress 0x7FF0 .RtlCreateHeap, 0x7FF1⟩,
        ⟨.RtlCreateHeap 0x1002 0 HeapReserveSize 0 0 0, 0x20000⟩] ∧
      0x1002 &&& winnt.HEAP_GROWABLE = winnt.HEAP_GROWABLE ∧
      ¬ ((0x1002 &&& winnt.HEAP_GROWABLE = winnt.HEAP_GROWABLE) ↔ false = true) := by
  decide

/-- C2, amended: for every 32-bit `flOptions`, the `HEAP_GROWABLE` bit of the
flags that `Rtl::HeapCreate` passes to the lower-level creation routine is set
if and only if `growable` is true or `flOptions` itself has the
`HEAP_GROWABLE` bit. -/
theorem Rtl_HeapCreate_growable_bit (p : Platform) (os : OS)
    (flOptions dwInitialSize reserveSize : Nat) (growable : Bool) (w : World) (e : Event)
    (hfl : flOptions < 2 ^ 32) (hG : p.HEAP_GROWABLE < 2 ^ 32)
    (hGC : p.HEAP_GROWABLE &&& HEAP_CLASS_1 = 0)
    (he : e ∈ (Rtl.HeapCreate p os flOptions dwInitialSize reserveSize growable w).2.trace.drop
      w.trace.length)
    (hc : e.isRtlCreateHeap = true) :
    ∃ F, e.call = .RtlCreateHeap F 0 reserveSize dwInitialSize 0 0 ∧
      (F &&& p.HEAP_GROWABLE = p.HEAP_GROWABLE ↔
        (growable = true ∨ flOptions &&& p.HEAP_GROWABLE = p.HEAP_GROWABLE)) := by
  refine ⟨_, Rtl.HeapCreate_routine_call p os flOptions dwInitialSize reserveSize growable w e
    he hc, ?_⟩
  rw [Rtl.HeapCreate.flags_eq p flOptions growable hfl hG]
  cases growable
  · simpa using flag_kept_iff flOptions _ _ _ (HEAP_GROWABLE_inside_mask p) hGC
  · simpa using or_and_self _ p.HEAP_GROWABLE

/-- Witness for the amended C2: `flOptions = 0` and `growable` true, the call
`main` makes, on the all-succeeding system with the SDK constants. -/
theorem Rtl_HeapCreate_growable_bit_witness :
    ∃ F, (⟨.RtlCreateHeap 0x1002 0 HeapReserveSize 0 0 0, 0x20000⟩ : Event).call =
        .RtlCreateHeap F 0 HeapReserveSize 0 0 0 ∧
      (F &&& winnt.HEAP_GROWABLE = winnt.HEAP_GROWABLE ↔
        (true = true ∨ 0 &&& winnt.HEAP_GROWABLE = winnt.HEAP_GROWABLE)) :=
  Rtl_HeapCreate_growable_bit winnt osOk 0 0 HeapReserveSize true World.init
    ⟨.RtlCreateHeap 0x1002 0 HeapReserveSize 0 0 0, 0x20000⟩ (by decide) (by decide)
    (by decide) (by decide) (by rfl)

/-- C4: `Rtl::HeapCreate` throws the value of a `GetLastError()` call made at
that moment exactly when the `ntdll` lookup returned null, or the
`RtlCreateHeap` lookup returned null, or the creation routine returned null;
after a failed lookup the routine is not called; in every other case the
calls are the two lookups and one call of the routine with
`(flags, null, reserveSize, dwInitialSize, null, null)`, and the handle the
routine returned is the result. -/
theorem Rtl_HeapCreate_contract (p : Platform) (os : OS)
    (flOptions dwInitialSize reserveSize : Nat) (growable : Bool) (w : World) :
    let r := Rtl.HeapCreate p os flOptions dwInitialSize reserveSize growable w
    let new := r.2.trace.drop w.trace.length
    let noModule := (⟨.GetModuleHandleW_ntdll, 0⟩ : Event) ∈ new
    let noSymbol := ∃ m, (⟨.GetProcAddress m .RtlCreateHeap, 0⟩ : Event) ∈ new
    let nullHeap := ∃ e ∈ new, e.isRtlCreateHeap = true ∧ e.ret = 0
    r.2.trace = w.trace ++ new ∧ r.2.out = w.out ∧
    ((∃ gle, r.1 = .error (.dword gle) ∧ new.getLast? = some ⟨.GetLastError, gle⟩) ↔
      (noModule ∨ noSymbol ∨ nullHeap)) ∧
    ((noModule ∨ noSymbol) → ∀ e ∈ new, e.isRtlCreateHeap = false) ∧
    (¬ (noModule ∨ noSymbol ∨ nullHeap) →
      ∃ ntdll fn heap, ntdll ≠ 0 ∧ fn ≠ 0 ∧ heap ≠ 0 ∧ r.1 = .ok heap ∧
        new = [⟨.GetModuleHandleW_ntdll, ntdll⟩, ⟨.GetProcAddress ntdll .RtlCreateHeap, fn⟩,
          ⟨.RtlCreateHeap (Rtl.HeapCreate.flags p flOptions growable) 0 reserveSize
            dwInitialSize 0 0, heap⟩]) := by
  intro r new noModule noSymbol nullHeap
  rcases Rtl.HeapCreate_cases p os flOptions dwInitialSize reserveSize growable w with
    ⟨g, h⟩ | ⟨n, g, hn, h⟩ | ⟨n, f, g, hn, hf, h⟩ | ⟨n, f, hp, hn, hf, hh, h⟩
  · have hnew : new = [⟨.GetModuleHandleW_ntdll, 0⟩, ⟨.GetLastError, g⟩] := by
      simp only [new, r, h, List.drop_left]
    have hr1 : r.1 = .error (.dword g) := by simp only [r, h]
    have hm : noModule := by simp only [noModule, hnew, List.mem_cons, true_or]
    refine ⟨?_, ?_, ?_, ?_, ?_⟩
    · simp only [hnew, r, h]
    · simp only [r, h]
    · exact ⟨fun _ => Or.inl hm, fun _ => ⟨g, hr1, by simp [hnew]⟩⟩
    · intro _ e he
      simp only [hnew, List.mem_cons, List.mem_singleton, List.not_mem_nil, or_false] at he
      rcases he with rfl | rfl <;> rfl
    · intro hno
      exact absurd (Or.inl hm) hno
  · have hnew : new = [⟨.GetModuleHandleW_ntdll, n⟩, ⟨.GetProcAddress n .RtlCreateHeap, 0⟩,
        ⟨.GetLastError, g⟩] := by
      simp only [new, r, h, List.drop_left]
    have hr1 : r.1 = .error (.dword g) := by simp only [r, h]
    have hm : noSymbol := ⟨n, by simp [hnew]⟩
    refine ⟨?_, ?_, ?_, ?_, ?_⟩
    · simp only [hnew, r, h]
    · simp only [r, h]
    · exact ⟨fun _ => Or.inr (Or.inl hm), fun _ => ⟨g, hr1, by simp [hnew]⟩⟩
    · intro _ e he
      simp only [hnew, List.mem_cons, List.mem_singleton, List.not_mem_nil, or_false] at he
      rcases he with rfl | rfl | rfl <;> rfl
    · intro hno
      exact absurd (Or.inr (Or.inl hm)) hno
  · have hnew : new = [⟨.GetModuleHandleW_ntdll, n⟩, ⟨.GetProcAddress n .RtlCreateHeap, f⟩,
        ⟨.RtlCreateHeap (Rtl.HeapCreate.flags p flOptions growable) 0 reserveSize
          dwInitialSize 0 0, 0⟩, ⟨.GetLastError, g⟩] := by
      simp only [new, r, h, List.drop_left]
    have hr1 : r.1 = .error (.dword g) := by simp only [r, h]
    have hm : nullHeap :=
      ⟨⟨.RtlCreateHeap (Rtl.HeapCreate.flags p flOptions growable) 0 reserveSize
          dwInitialSize 0 0, 0⟩, by simp [hnew], rfl, rfl⟩
    have hnm : ¬ noModule := by
      simp only [noModule, hnew, List.mem_cons, List.mem_singleton, List.not_mem_nil]
      simp [Ne.symm hn]
    have hns : ¬ noSymbol := by
      simp only [noSymbol, hnew, List.mem_cons, List.mem_singleton, List.not_mem_nil]
      simp [Ne.symm hf]
    refine ⟨?_, ?_, ?_, ?_, ?_⟩
    · simp only [hnew, r, h]
    · simp only [r, h]
    · exact ⟨fun _ => Or.inr (Or.inr hm), fun _ => ⟨g, hr1, by simp [hnew]⟩⟩
    · intro hres
      rcases hres with hres | hres
      · exact absurd hres hnm
      · exact absurd hres hns
    · intro hno
      exact absurd (Or.inr (Or.inr hm)) hno
  · have hnew : new = [⟨.GetModuleHandleW_ntdll, n⟩, ⟨.GetProcAddress n .RtlCreateHeap, f⟩,
        ⟨.RtlCreateHeap (Rtl.HeapCreate.flags p flOptions growable) 0 reserveSize
          dwInitialSize 0 0, hp⟩] := by
      simp only [new, r, h, List.drop_left]
    have hr1 : r.1 = .ok hp := by simp only [r, h]
    have hnm : ¬ noModule := by
      simp only [noModule, hnew, List.mem_cons, List.mem_singleton, List.not_mem_nil]
      simp [Ne.symm hn]
    have hns : ¬ noSymbol := by
      simp only [noSymbol, hnew, List.mem_cons, List.mem_singleton, List.not_mem_nil]
      simp [Ne.symm hf]
    have hnh : ¬ nullHeap := by
      rintro ⟨e, he, hc, hz⟩
      simp only [hnew, List.mem_cons, List.mem_singleton, List.not_mem_nil, or_false] at he
      rcases he with rfl | rfl | rfl
      · simp [Event.isRtlCreateHeap] at hc
      · simp [Event.isRtlCreateHeap] at hc
      · exact hh hz
    refine ⟨?_, ?_, ?_, ?_, ?_⟩
    · simp only [hnew, r, h]
    · simp only [r, h]
    · constructor
      · rintro ⟨g, hg, _⟩
        rw [hr1] at hg
        cases hg
      · rintro (h1 | h1 | h1)
        · exact absurd h1 hnm
        · exact absurd h1 hns
        · exact absurd h1 hnh
    · intro hres
      rcases hres with hres | hres
      · exact absurd hres hnm
      · exact absurd hres hns
    · intro _
      exact ⟨n, f, hp, hn, hf, hh, hr1, hnew⟩

/-! ## Rtl::HeapDestroy -/

/-- The three ways through `Rtl::HeapDestroy`, each with the events it adds. -/
theorem Rtl.HeapDestroy_cases (os : OS) (heap : Nat) (w : World) :
    (∃ gle, Rtl.HeapDestroy os heap w =
        (.error (.dword gle),
          ⟨w.trace ++ [⟨.GetModuleHandleW_ntdll, 0⟩, ⟨.GetLastError, gle⟩], w.out⟩)) ∨
    (∃ ntdll gle, ntdll ≠ 0 ∧ Rtl.HeapDestroy os heap w =
        (.error (.dword gle),
          ⟨w.trace ++ [⟨.GetModuleHandleW_ntdll, ntdll⟩,
            ⟨.GetProcAddress ntdll .RtlDestroyHeap, 0⟩, ⟨.GetLastError, gle⟩], w.out⟩)) ∨
    (∃ ntdll fn r gle, ntdll ≠ 0 ∧ fn ≠ 0 ∧
      Rtl.HeapDestroy os heap w =
        (.ok (if gle ≠ 0 then FALSE else TRUE),
          ⟨w.trace ++ [⟨.GetModuleHandleW_ntdll, ntdll⟩,
            ⟨.GetProcAddress ntdll .RtlDestroyHeap, fn⟩,
            ⟨.RtlDestroyHeap heap, r⟩, ⟨.GetLastError, gle⟩], w.out⟩) ∧
      Consistent os w.trace [⟨.GetModuleHandleW_ntdll, ntdll⟩,
            ⟨.GetProcAddress ntdll .RtlDestroyHeap, fn⟩,
            ⟨.RtlDestroyHeap heap, r⟩, ⟨.GetLastError, gle⟩]) := by
  by_cases h1 : os w.trace .GetModuleHandleW_ntdll = 0
  · left
    simp only [Rtl.HeapDestroy, sys, throwGetLastError, h1, if_true, List.append_assoc,
      List.singleton_append]
    exact ⟨_, rfl⟩
  · right
    by_cases h2 : os (w.trace ++ [⟨.GetModuleHandleW_ntdll, os w.trace .GetModuleHandleW_ntdll⟩])
        (.GetProcAddress (os w.trace .GetModuleHandleW_ntdll) .RtlDestroyHeap) = 0
    · left
      simp only [Rtl.HeapDestroy, sys, throwGetLastError, if_neg h1, h2, if_true,
        List.append_assoc, List.singleton_append]
      exact ⟨_, _, h1, rfl⟩
    · right
      simp only [Rtl.HeapDestroy, sys, throwGetLastError, if_neg h1, if_neg h2,
        List.append_assoc, List.singleton_append, List.cons_append, List.nil_append]
      refine ⟨_, _, _, _, h1, h2, rfl, ?_⟩
      simp only [Consistent, List.append_assoc, List.singleton_append, List.cons_append,
        List.nil_append, and_self]

/-- C8: when the module and the `RtlDestroyHeap` symbol resolve,
`Rtl::HeapDestroy` makes exactly the two lookups, one call of the destroy
routine on the given handle and one `GetLastError()` query after it, nothing
else; it returns `TRUE` exactly when that query reads zero, whatever the
routine returned; and when the value read is a non-zero value that was already
pending before the function was entered, the result is `FALSE`. -/
theorem Rtl_HeapDestroy_contract (os : OS) (heap : Nat) (w : World)
    (hmod : os w.trace .GetModuleHandleW_ntdll ≠ 0)
    (hsym : os (w.trace ++ [⟨.GetModuleHandleW_ntdll, os w.trace .GetModuleHandleW_ntdll⟩])
      (.GetProcAddress (os w.trace .GetModuleHandleW_ntdll) .RtlDestroyHeap) ≠ 0) :
    ∃ ntdll fn r gle b,
      Rtl.HeapDestroy os heap w =
        (.ok b, ⟨w.trace ++ [⟨.GetModuleHandleW_ntdll, ntdll⟩,
          ⟨.GetProcAddress ntdll .RtlDestroyHeap, fn⟩,
          ⟨.RtlDestroyHeap heap, r⟩, ⟨.GetLastError, gle⟩], w.out⟩) ∧
      ((Rtl.HeapDestroy os heap w).2.trace.drop w.trace.length).countP
        Event.isRtlDestroyHeap = 1 ∧
      gle = os (w.trace ++ [⟨.GetModuleHandleW_ntdll, ntdll⟩,
          ⟨.GetProcAddress ntdll .RtlDestroyHeap, fn⟩, ⟨.RtlDestroyHeap heap, r⟩])
        .GetLastError ∧
      (b = TRUE ↔ gle = 0) ∧ (b = FALSE ↔ gle ≠ 0) ∧
      (gle = os w.trace .GetLastError → os w.trace .GetLastError ≠ 0 → b = FALSE) := by
  rcases Rtl.HeapDestroy_cases os heap w with
    ⟨g, h⟩ | ⟨n, g, hn, h⟩ | ⟨n, f, r, g, hn, hf, h, hcons⟩
  · exfalso
    have ht := congrArg (fun x => x.2.trace) h
    simp only [Rtl.HeapDestroy, sys, throwGetLastError, if_neg hmod, if_neg hsym,
      List.append_assoc, List.singleton_append, List.cons_append, List.nil_append] at ht
    simp at ht
  · exfalso
    have ht := congrArg (fun x => x.2.trace) h
    simp only [Rtl.HeapDestroy, sys, throwGetLastError, if_neg hmod, if_neg hsym,
      List.append_assoc, List.singleton_append, List.cons_append, List.nil_append] at ht
    simp at ht
  · simp only [Consistent, List.append_assoc, List.singleton_append, List.cons_append,
      List.nil_append, and_true] at hcons
    refine ⟨n, f, r, g, _, h, ?_, hcons.2.2.2, ?_, ?_, ?_⟩
    · rw [h]
      simp [List.drop_left, List.countP_cons, Event.isRtlDestroyHeap]
    · by_cases hz : g = 0 <;> simp [hz, TRUE, FALSE]
    · by_cases hz : g = 0 <;> simp [hz, TRUE, FALSE]
    · intro h1 h2
      rw [← h1] at h2
      simp [h2]

/-- Witness for C8: the destroy routine reports success, the last error is a
stale 5, and `Rtl::HeapDestroy` returns `FALSE`. -/
theorem Rtl_HeapDestroy_contract_witness :
    ∃ ntdll fn r gle b,
      Rtl.HeapDestroy osLastError5 0x20000 World.init =
        (.ok b, ⟨World.init.trace ++ [⟨.GetModuleHandleW_ntdll, ntdll⟩,
          ⟨.GetProcAddress ntdll .RtlDestroyHeap, fn⟩,
          ⟨.RtlDestroyHeap 0x20000, r⟩, ⟨.GetLastError, gle⟩], World.init.out⟩) ∧
      ((Rtl.HeapDestroy osLastError5 0x20000 World.init).2.trace.drop
        World.init.trace.length).countP Event.isRtlDestroyHeap = 1 ∧
      gle = osLastError5 (World.init.trace ++ [⟨.GetModuleHandleW_ntdll, ntdll⟩,
          ⟨.GetProcAddress ntdll .RtlDestroyHeap, fn⟩, ⟨.RtlDestroyHeap 0x20000, r⟩])
        .GetLastError ∧
      (b = TRUE ↔ gle = 0) ∧ (b = FALSE ↔ gle ≠ 0) ∧
      (gle = osLastError5 World.init.trace .GetLastError →
        osLastError5 World.init.trace .GetLastError ≠ 0 → b = FALSE) :=
  Rtl_HeapDestroy_contract osLastError5 0x20000 World.init (by decide) (by decide)

/-! ## The allocation loop -/

theorem Consistent_append (os : OS) (a b : List Event) :
    ∀ tr, Consistent os tr (a ++ b) ↔ Consistent os tr a ∧ Consistent os (tr ++ a) b := by
  induction a with
  | nil => intro tr; simp [Consistent]
  | cons e rest ih =>
    intro tr
    show (e.ret = os tr e.call ∧ Consistent os (tr ++ [e]) (rest ++ b)) ↔
      (e.ret = os tr e.call ∧ Consistent os (tr ++ [e]) rest) ∧ Consistent os (tr ++ e :: rest) b
    rw [ih, and_assoc, List.append_assoc, List.singleton_append]

/-- One round over the two heaps. -/
theorem allocRound_two (os : OS) (B : Nat) (a b : ScopedHeapHandle) (w : World) :
    allocRound os B [a, b] w =
      if os w.trace (.HeapAlloc a.get 0 B) = 0 then
        (.error (.runtime_error "allocation failed!"),
          ⟨w.trace ++ [⟨.HeapAlloc a.get 0 B, 0⟩], w.out⟩)
      else if os (w.trace ++ [⟨.HeapAlloc a.get 0 B, os w.trace (.HeapAlloc a.get 0 B)⟩])
          (.HeapAlloc b.get 0 B) = 0 then
        (.error (.runtime_error "allocation failed!"),
          ⟨w.trace ++ [⟨.HeapAlloc a.get 0 B, os w.trace (.HeapAlloc a.get 0 B)⟩,
            ⟨.HeapAlloc b.get 0 B, 0⟩], w.out⟩)
      else
        (.ok (),
          ⟨w.trace ++ [⟨.HeapAlloc a.get 0 B, os w.trace (.HeapAlloc a.get 0 B)⟩,
            ⟨.HeapAlloc b.get 0 B,
              os (w.trace ++ [⟨.HeapAlloc a.get 0 B, os w.trace (.HeapAlloc a.get 0 B)⟩])
                (.HeapAlloc b.get 0 B)⟩], w.out⟩) := by
  simp only [allocRound, sys]
  split_ifs with h1 h2
  · simp only [h1]
  · simp only [h2, List.append_assoc, List.singleton_append]
  · simp only [List.append_assoc, List.singleton_append]

/-- What a finished allocation loop has done: `k` complete rounds, then either
the loop condition failed, or one more round was cut short by the first
request that returned no block. -/
theorem allocLoop_spec (bits T B : Nat) (os : OS) (a b : ScopedHeapHandle)
    (hwrap : T + B ≤ 2 ^ bits) :
    ∀ (fuel s : Nat) (w : World) (ex : LoopExit),
      allocLoop bits T B os [a, b] fuel s w = some ex →
      ∃ k good tail, CompleteRounds a.get b.get B k good ∧
        ex.world = ⟨w.trace ++ (good ++ tail), w.out⟩ ∧
        ex.sumSize = s + k * B ∧
        Consistent os w.trace (good ++ tail) ∧
        (∀ j, j < k → s + j * B < T) ∧
        ((ex.result = .ok () ∧ tail = [] ∧ T ≤ s + k * B) ∨
          (ex.result = .error (.runtime_error "allocation failed!") ∧ s + k * B < T ∧
            (tail = [⟨.HeapAlloc a.get 0 B, 0⟩] ∨
              ∃ r, r ≠ 0 ∧ tail = [⟨.HeapAlloc a.get 0 B, r⟩, ⟨.HeapAlloc b.get 0 B, 0⟩]))) := by
  intro fuel
  induction fuel with
  | zero => intro s w ex h; simp [allocLoop] at h
  | succ fuel ih =>
    intro s w ex h
    rw [allocLoop] at h
    by_cases hs : s < T
    · rw [if_pos hs, allocRound_two] at h
      by_cases h1 : os w.trace (.HeapAlloc a.get 0 B) = 0
      · rw [if_pos h1] at h
        simp only [Option.some.injEq] at h
        subst h
        refine ⟨0, [], [⟨.HeapAlloc a.get 0 B, 0⟩], ⟨rfl, by simp⟩, rfl, by simp, ?_, by simp,
          Or.inr ⟨rfl, by simpa using hs, Or.inl rfl⟩⟩
        simp [Consistent, h1]
      · rw [if_neg h1] at h
        by_cases h2 : os (w.trace ++ [⟨.HeapAlloc a.get 0 B, os w.trace (.HeapAlloc a.get 0 B)⟩])
            (.HeapAlloc b.get 0 B) = 0
        · rw [if_pos h2] at h
          simp only [Option.some.injEq] at h
          subst h
          refine ⟨0, [], [⟨.HeapAlloc a.get 0 B, os w.trace (.HeapAlloc a.get 0 B)⟩,
              ⟨.HeapAlloc b.get 0 B, 0⟩], ⟨rfl, by simp⟩, rfl, by simp, ?_, by simp,
            Or.inr ⟨rfl, by simpa using hs, Or.inr ⟨_, h1, rfl⟩⟩⟩
          simp [Consistent, h2]
        · rw [if_neg h2] at h
          have hmod : (s + B) % 2 ^ bits = s + B := Nat.mod_eq_of_lt (by omega)
          simp only [hmod] at h
          obtain ⟨k, good, tail, hgood, hworld, hsum, hcons, hlt, hres⟩ := ih _ _ _ h
          refine ⟨k + 1,
            ⟨.HeapAlloc a.get 0 B, os w.trace (.HeapAlloc a.get 0 B)⟩ ::
              ⟨.HeapAlloc b.get 0 B,
                os (w.trace ++ [⟨.HeapAlloc a.get 0 B, os w.trace (.HeapAlloc a.get 0 B)⟩])
                  (.HeapAlloc b.get 0 B)⟩ :: good, tail, ?_, ?_, ?_, ?_, ?_, ?_⟩
          · refine ⟨?_, ?_⟩
            · simp only [List.map_cons, hgood.1, List.replicate_succ, List.flatten_cons,
                List.cons_append, List.nil_append]
            · intro e he
              simp only [List.mem_cons] at he
              rcases he with rfl | rfl | he
              · exact h1
              · exact h2
              · exact hgood.2 e he
          · simp only [hworld, List.append_assoc, List.cons_append, List.nil_append]
          · rw [hsum]; ring
          · simp only [List.cons_append, Consistent, true_and, List.append_assoc,
              List.singleton_append]
            simpa only [List.append_assoc, List.cons_append, List.nil_append] using hcons
          · intro j hj
            cases j with
            | zero => simpa using hs
            | succ j =>
              have := hlt j (by omega)
              have e : s + (j + 1) * B = s + B + j * B := by ring
              omega
          · have e : s + (k + 1) * B = s + B + k * B := by ring
            rw [e]
            exact hres
    · rw [if_neg hs] at h
      simp only [Option.some.injEq] at h
      subst h
      exact ⟨0, [], [], ⟨rfl, by simp⟩, by simp, by simp, by simp [Consistent], by simp,
        Or.inl ⟨rfl, rfl, by simpa using hs⟩⟩

/-- The allocation loop ends when the fuel exceeds the number of rounds that
fit below the target. -/
theorem allocLoop_terminates (bits T B : Nat) (os : OS) (heaps : List ScopedHeapHandle)
    (hB : 0 < B) (hwrap : T + B ≤ 2 ^ bits) :
    ∀ (fuel s : Nat) (w : World), (T - s + B - 1) / B < fuel →
      ∃ ex, allocLoop bits T B os heaps fuel s w = some ex := by
  intro fuel
  induction fuel with
  | zero => intro s w h; exact absurd h (Nat.not_lt_zero _)
  | succ fuel ih =>
    intro s w h
    rw [allocLoop]
    by_cases hs : s < T
    · rw [if_pos hs]
      rcases hr : allocRound os B heaps w with ⟨r, w2⟩
      cases r with
      | error e => exact ⟨_, rfl⟩
      | ok u =>
        have hmod : (s + B) % 2 ^ bits = s + B := Nat.mod_eq_of_lt (by omega)
        simp only [hmod]
        apply ih
        by_cases hlast : T ≤ s + B
        · have e0 : T - (s + B) + B - 1 = B - 1 := by omega
          rw [e0, Nat.div_eq_of_lt (by omega)]
          have hpos : 0 < (T - s + B - 1) / B := Nat.div_pos (by omega) hB
          omega
        · have e1 : T - s + B - 1 = (T - (s + B) + B - 1) + B := by omega
          rw [e1, Nat.add_div_right _ hB] at h
          omega
    · rw [if_neg hs]
      exact ⟨_, rfl⟩

/-- In `k` complete rounds each heap was asked `k` times, and after every
event of them the first heap is level with the second or one request ahead. -/
theorem CompleteRounds_counts (h0 h1 B : Nat) (hne : h0 ≠ h1) :
    ∀ (k : Nat) (good : List Event), CompleteRounds h0 h1 B k good →
      good.length = 2 * k ∧ allocRequests h0 good = k ∧ allocRequests h1 good = k ∧
      ∀ n, allocRequests h1 (good.take n) ≤ allocRequests h0 (good.take n) ∧
        allocRequests h0 (good.take n) ≤ allocRequests h1 (good.take n) + 1 := by
  intro k
  induction k with
  | zero =>
    intro good h
    have hnil : good = [] := by simpa [CompleteRounds] using h.1
    subst hnil
    simp [allocRequests]
  | succ k ih =>
    intro good h
    obtain ⟨hmap, hret⟩ := h
    simp only [List.replicate_succ, List.flatten_cons, List.cons_append, List.nil_append] at hmap
    obtain ⟨e0, rest0, rfl, hc0, hmap⟩ := List.map_eq_cons_iff.mp hmap
    obtain ⟨e1, rest, rfl, hc1, hmap⟩ := List.map_eq_cons_iff.mp hmap
    have hrest : CompleteRounds h0 h1 B k rest :=
      ⟨hmap, fun e he => hret e (List.mem_cons_of_mem _ (List.mem_cons_of_mem _ he))⟩
    obtain ⟨hlen, hc, hd, hpre⟩ := ih rest hrest
    have a00 : e0.isAllocOn h0 = true := by simp [Event.isAllocOn, hc0]
    have a01 : e0.isAllocOn h1 = false := by simp [Event.isAllocOn, hc0, hne]
    have a10 : e1.isAllocOn h0 = false := by simp [Event.isAllocOn, hc1, Ne.symm hne]
    have a11 : e1.isAllocOn h1 = true := by simp [Event.isAllocOn, hc1]
    refine ⟨?_, ?_, ?_, ?_⟩
    · simp only [List.length_cons, hlen]; ring
    · simp only [allocRequests, List.countP_cons, a00, a10] at hc ⊢
      simp [hc]
    · simp only [allocRequests, List.countP_cons, a01, a11] at hd ⊢
      simp [hd]
    · intro n
      cases n with
      | zero => simp [allocRequests]
      | succ n =>
        cases n with
        | zero => simp [allocRequests, List.countP_cons, a00, a01]
        | succ n =>
          have := hpre n
          simp only [allocRequests, List.take_succ_cons, List.countP_cons, a00, a01, a10,
            a11] at this ⊢
          simp only [if_true, Bool.false_eq_true, if_false] at this ⊢
          omega

/-- When every request of the loop returns a block, the loop ends normally
after the least number `k` of rounds with `T ≤ k * B`. -/
theorem allocLoop_ok (bits T B : Nat) (os : OS) (a b : ScopedHeapHandle)
    (w : World) (fuel : Nat)
    (hB : 0 < B) (hwrap : T + B ≤ 2 ^ bits)
    (hok : ∀ tr, os tr (.HeapAlloc a.get 0 B) ≠ 0 ∧ os tr (.HeapAlloc b.get 0 B) ≠ 0)
    (hfuel : (T + B - 1) / B < fuel) :
    ∃ ex k good, allocLoop bits T B os [a, b] fuel 0 w = some ex ∧
      ex.result = .ok () ∧ ex.world = ⟨w.trace ++ good, w.out⟩ ∧
      CompleteRounds a.get b.get B k good ∧ ex.sumSize = k * B ∧ T ≤ k * B ∧
      (∀ j, j < k → j * B < T) ∧ (T + B - 1) / B = k := by
  obtain ⟨ex, hex⟩ := allocLoop_terminates bits T B os [a, b] hB hwrap fuel 0 w
    (by simpa using hfuel)
  obtain ⟨k, good, tail, hgood, hworld, hsum, hcons, hlt, hres⟩ :=
    allocLoop_spec bits T B os a b hwrap fuel 0 w ex hex
  rw [Consistent_append] at hcons
  rcases hres with ⟨hr, htail, hT⟩ | ⟨_, _, htail | ⟨r, _, htail⟩⟩
  · subst htail
    simp only [Nat.zero_add, List.append_nil] at hT hsum hworld hlt
    have hk : (T + B - 1) / B = k := by
      apply Nat.div_eq_of_lt_le
      · rcases Nat.eq_zero_or_pos k with h0 | hpos
        · subst h0; omega
        · have := hlt (k - 1) (by omega)
          have e : k * B = (k - 1) * B + B := by
            conv_lhs => rw [← Nat.sub_add_cancel hpos]
            ring
          omega
      · have e : (k + 1) * B = k * B + B := by ring
        omega
    exact ⟨ex, k, good, hex, hr, hworld, hgood, hsum, hT, hlt, hk⟩
  · exfalso
    subst htail
    simp only [Consistent, and_true] at hcons
    exact (hok _).1 hcons.2.symm
  · exfalso
    subst htail
    simp only [Consistent, and_true] at hcons
    exact (hok _).2 hcons.2.2.symm

/-- C7: for a block size `B > 0` and a target `T` with `T + B` inside the
range of `size_t`, if every request the loop makes returns a block, the loop
ends normally after exactly `ceil(T / B)` complete rounds, each one request of
`B` bytes with flags 0 on heap 0 and then one on heap 1; the two heaps are
never more than one request apart and end level; the final counter is the
least multiple of `B` that is at least `T`.  For `T = 209715200` and
`B = 300` these are 699051 rounds, 1398102 requests and a counter of
209715300. -/
theorem allocLoop_all_succeed (bits T B : Nat) (os : OS) (a b : ScopedHeapHandle)
    (w : World) (fuel : Nat)
    (hB : 0 < B) (hwrap : T + B < 2 ^ bits)
    (hok : ∀ tr, os tr (.HeapAlloc a.get 0 B) ≠ 0 ∧ os tr (.HeapAlloc b.get 0 B) ≠ 0)
    (hfuel : (T + B - 1) / B < fuel) :
    ∃ ex new, allocLoop bits T B os [a, b] fuel 0 w = some ex ∧
      ex.result = .ok () ∧
      ex.world = ⟨w.trace ++ new, w.out⟩ ∧
      CompleteRounds a.get b.get B ((T + B - 1) / B) new ∧
      new.length = 2 * ((T + B - 1) / B) ∧
      (a.get ≠ b.get →
        allocRequests a.get new = (T + B - 1) / B ∧
        allocRequests b.get new = (T + B - 1) / B ∧
        ∀ n, allocRequests b.get (new.take n) ≤ allocRequests a.get (new.take n) ∧
          allocRequests a.get (new.take n) ≤ allocRequests b.get (new.take n) + 1) ∧
      ex.sumSize = B * ((T + B - 1) / B) ∧
      (B ∣ ex.sumSize ∧ T ≤ ex.sumSize ∧ ∀ m, B ∣ m → T ≤ m → ex.sumSize ≤ m) ∧
      (T = TestMaxAlloc → B = AllocAtIteration →
        (T + B - 1) / B = 699051 ∧ new.length = 1398102 ∧ ex.sumSize = 209715300) := by
  obtain ⟨ex, k, good, hex, hr, hworld, hgood, hsum, hT, hlt, hk⟩ :=
    allocLoop_ok bits T B os a b w fuel hB (Nat.le_of_lt hwrap) hok hfuel
  have hsum2 : ex.sumSize = B * k := by rw [hsum]; ring
  have hmin : ∀ m, B ∣ m → T ≤ m → ex.sumSize ≤ m := by
    rintro m ⟨q, rfl⟩ hTm
    rw [hsum2]
    apply Nat.mul_le_mul_left
    by_contra hq
    have := hlt q (by omega)
    rw [Nat.mul_comm] at this
    omega
  have hlength : good.length = 2 * k := by
    have := congrArg List.length hgood.1
    simpa [Nat.mul_comm] using this
  rw [hk]
  refine ⟨ex, good, hex, hr, hworld, hgood, hlength, ?_, hsum2, ⟨⟨k, hsum2⟩, ?_, hmin⟩, ?_⟩
  · intro hne
    obtain ⟨_, h1, h2, h3⟩ := CompleteRounds_counts a.get b.get B hne k good hgood
    exact ⟨h1, h2, h3⟩
  · rw [hsum]; exact hT
  · intro hTe hBe
    subst hTe hBe
    have hk2 : k = 699051 := by
      rw [← hk]
      decide
    subst hk2
    exact ⟨rfl, hlength, by rw [hsum2]; decide⟩

/-- Witness for C7: the shipped constants on a 64-bit target, on the
all-succeeding system. -/
theorem allocLoop_all_succeed_witness :
    ∃ ex new, allocLoop 64 TestMaxAlloc AllocAtIteration osOk
        [⟨0x10000, .HeapDestroy⟩, ⟨0x20000, .Rtl_HeapDestroy⟩] 699052 0 World.init = some ex ∧
      ex.result = .ok () ∧ ex.world = ⟨World.init.trace ++ new, World.init.out⟩ ∧
      new.length = 1398102 ∧ ex.sumSize = 209715300 :=
  let ⟨ex, new, h1, h2, h3, _, _, _, _, _, h9⟩ :=
    allocLoop_all_succeed 64 TestMaxAlloc AllocAtIteration osOk
      ⟨0x10000, .HeapDestroy⟩ ⟨0x20000, .Rtl_HeapDestroy⟩ World.init 699052
      (by decide) (by decide) (fun _ => ⟨by simp [osOk], by simp [osOk]⟩) (by decide)
  ⟨ex, new, h1, h2, h3, (h9 rfl rfl).2.1, (h9 rfl rfl).2.2⟩

/-! ## The loop against a capped heap -/

theorem allocatedBytes_append (h : Nat) (a b : List Event) :
    allocatedBytes h (a ++ b) = allocatedBytes h a + allocatedBytes h b := by
  induction a with
  | nil => simp [allocatedBytes]
  | cons e rest ih =>
    rw [List.cons_append]
    simp only [allocatedBytes]
    rw [ih, Nat.add_assoc]

/-- Every event of complete rounds is a request on one of the two heaps. -/
theorem CompleteRounds_calls (h0 h1 B k : Nat) (good : List Event)
    (hg : CompleteRounds h0 h1 B k good) (e : Event) (he : e ∈ good) :
    e.call = .HeapAlloc h0 0 B ∨ e.call = .HeapAlloc h1 0 B := by
  have hm : e.call ∈ good.map Event.call := List.mem_map_of_mem _ he
  rw [hg.1, List.mem_flatten] at hm
  obtain ⟨l, hl, hel⟩ := hm
  rw [List.eq_of_mem_replicate hl] at hel
  simpa using hel

/-- In complete rounds every request on a heap returned a block. -/
theorem CompleteRounds_successful (h0 h1 B k : Nat) (good : List Event)
    (hg : CompleteRounds h0 h1 B k good) (h : Nat) :
    successfulAllocs h good = allocRequests h good := by
  unfold successfulAllocs allocRequests
  apply List.countP_congr
  intro e he
  have := hg.2 e he
  simp [this]

/-- Against a heap that refuses every request taking it above `R` bytes, the
successful requests of `B` bytes on it fit into what is left of `R`. -/
theorem capped_heap_bound (os : OS) (hb R B : Nat)
    (hcap : ∀ tr n, R < allocatedBytes hb tr + n → os tr (.HeapAlloc hb 0 n) = 0) :
    ∀ (new tr : List Event), Consistent os tr new →
      (∀ e ∈ new, ∃ h, e.call = .HeapAlloc h 0 B) →
      successfulAllocs hb new * B ≤ R - allocatedBytes hb tr := by
  intro new
  induction new with
  | nil => intro tr _ _; simp [successfulAllocs]
  | cons e rest ih =>
    intro tr hcons hall
    obtain ⟨hret, hrest⟩ := hcons
    obtain ⟨h, hcall⟩ := hall e (List.mem_cons_self _ _)
    have ih2 := ih (tr ++ [e]) hrest (fun e2 he2 => hall e2 (List.mem_cons_of_mem _ he2))
    rw [allocatedBytes_append] at ih2
    by_cases hs : h = hb ∧ e.ret ≠ 0
    · obtain ⟨rfl, hnz⟩ := hs
      have hfit : allocatedBytes h tr + B ≤ R := by
        by_contra hlt
        have := hcap tr B (by omega)
        rw [← hcall, ← hret] at this
        exact hnz this
      have h1 : allocatedBytes h [e] = B := by
        simp [allocatedBytes, hcall, hnz]
      have h2 : successfulAllocs h (e :: rest) = successfulAllocs h rest + 1 := by
        simp [successfulAllocs, List.countP_cons, Event.isAllocOn, hcall, hnz]
      have e1 : (successfulAllocs h rest + 1) * B = successfulAllocs h rest * B + B := by ring
      rw [h1] at ih2
      rw [h2, e1]
      omega
    · have h1 : allocatedBytes hb [e] = 0 := by
        simp only [allocatedBytes, hcall, Nat.add_zero]
        rw [if_neg hs]
      have h2 : successfulAllocs hb (e :: rest) = successfulAllocs hb rest := by
        simp only [successfulAllocs, List.countP_cons, Event.isAllocOn, hcall]
        have : ¬ ((h == hb && e.ret != 0) = true) := by
          simpa using hs
        simp [this]
      rw [h2]
      rw [h1] at ih2
      simpa using ih2

/-- C10: with target 200 MiB, reservation `R` = 150 MiB and blocks of 300
bytes, against any allocator in which the reserved heap refuses every request
that would take its allocated bytes above `R` and the standard heap never
refuses, the loop ends with the allocation failure, raised by a refused
request on the reserved heap, while its counter is below 200 MiB and after at
most `R / 300 = 524288` successful allocations from the reserved heap; against
an allocator in which neither heap refuses, the loop ends normally with the
counter at or above the target. -/
theorem allocLoop_reserved_exhausts (arch : Arch) (os : OS) (a b : ScopedHeapHandle)
    (w : World) (fuel : Nat)
    (hfuel : (TestMaxAlloc + AllocAtIteration - 1) / AllocAtIteration < fuel) :
    (a.get ≠ b.get →
      (∀ tr n, HeapReserveSize < allocatedBytes b.get tr + n →
        os tr (.HeapAlloc b.get 0 n) = 0) →
      (∀ tr n, os tr (.HeapAlloc a.get 0 n) ≠ 0) →
      ∃ ex new, allocLoop arch.SIZE_BITS TestMaxAlloc AllocAtIteration os [a, b] fuel 0 w
          = some ex ∧
        ex.result = .error (.runtime_error "allocation failed!") ∧
        ex.sumSize < 200 * 1024 * 1024 ∧
        ex.world = ⟨w.trace ++ new, w.out⟩ ∧
        new.getLast? = some ⟨.HeapAlloc b.get 0 AllocAtIteration, 0⟩ ∧
        successfulAllocs b.get new ≤ 524288 ∧
        HeapReserveSize / AllocAtIteration = 524288) ∧
    ((∀ tr n, os tr (.HeapAlloc a.get 0 n) ≠ 0 ∧ os tr (.HeapAlloc b.get 0 n) ≠ 0) →
      ∃ ex, allocLoop arch.SIZE_BITS TestMaxAlloc AllocAtIteration os [a, b] fuel 0 w
          = some ex ∧
        ex.result = .ok () ∧ 200 * 1024 * 1024 ≤ ex.sumSize) := by
  have hwrap : TestMaxAlloc + AllocAtIteration ≤ 2 ^ arch.SIZE_BITS := by
    cases arch <;> decide
  have hB : 0 < AllocAtIteration := by decide
  constructor
  · intro hne hcap hstd
    obtain ⟨ex, hex⟩ := allocLoop_terminates arch.SIZE_BITS TestMaxAlloc AllocAtIteration os
      [a, b] hB hwrap fuel 0 w (by simpa using hfuel)
    obtain ⟨k, good, tail, hgood, hworld, hsum, hcons, hlt, hres⟩ :=
      allocLoop_spec arch.SIZE_BITS TestMaxAlloc AllocAtIteration os a b hwrap fuel 0 w ex hex
    have hcons2 := (Consistent_append os good tail w.trace).mp hcons
    have hgoodcalls : ∀ e ∈ good, ∃ h, e.call = .HeapAlloc h 0 AllocAtIteration := by
      intro e he
      rcases CompleteRounds_calls _ _ _ _ _ hgood e he with h | h
      · exact ⟨_, h⟩
      · exact ⟨_, h⟩
    have hbound := capped_heap_bound os b.get HeapReserveSize AllocAtIteration hcap good
      w.trace hcons2.1 hgoodcalls
    have hk : successfulAllocs b.get good = k := by
      rw [CompleteRounds_successful _ _ _ _ _ hgood]
      exact (CompleteRounds_counts a.get b.get AllocAtIteration hne k good hgood).2.2.1
    rw [hk] at hbound
    have hkR : k * AllocAtIteration ≤ HeapReserveSize :=
      Nat.le_trans hbound (Nat.sub_le _ _)
    have hR : HeapReserveSize = 157286400 := by decide
    have hT : TestMaxAlloc = 209715200 := by decide
    have hA : AllocAtIteration = 300 := by decide
    rw [hR, hA] at hkR
    rcases hres with ⟨_, _, hTle⟩ | ⟨hr, hlt2, htail | ⟨r, hr0, htail⟩⟩
    · exfalso
      rw [hT, hA] at hTle
      omega
    · exfalso
      subst htail
      simp only [Consistent, and_true] at hcons2
      exact hstd _ _ hcons2.2.symm
    · subst htail
      refine ⟨ex, good ++ [⟨.HeapAlloc a.get 0 AllocAtIteration, r⟩,
        ⟨.HeapAlloc b.get 0 AllocAtIteration, 0⟩], hex, hr, ?_, hworld, ?_, ?_, by decide⟩
      · rw [hsum, hA]
        omega
      · simp [List.getLast?_append]
      · have hab : (a.get == b.get) = false := by simpa using hne
        simp only [successfulAllocs, List.countP_append, List.countP_cons, List.countP_nil,
          Event.isAllocOn] at hk ⊢
        simp only [hk, hab, bne_self_eq_false, Bool.and_false, Bool.false_eq_true, if_false,
          Bool.false_and, Nat.add_zero, Nat.zero_add]
        omega
  · intro hok
    obtain ⟨ex, k, good, hex, hr, _, _, hsum, hT, _, _⟩ :=
      allocLoop_ok arch.SIZE_BITS TestMaxAlloc AllocAtIteration os a b w fuel hB hwrap
        (fun tr => hok tr AllocAtIteration) hfuel
    refine ⟨ex, hex, hr, ?_⟩
    rw [hsum]
    have hT2 : TestMaxAlloc = 200 * 1024 * 1024 := by decide
    rw [← hT2]
    exact hT

/-- Witness for C10: the capped system on a 64-bit target, standard heap
`0x10000` and reserved heap `0x20000`. -/
theorem allocLoop_reserved_exhausts_witness :
    ∃ ex new, allocLoop Arch.x64.SIZE_BITS TestMaxAlloc AllocAtIteration osReserved
        [⟨0x10000, .HeapDestroy⟩, ⟨0x20000, .Rtl_HeapDestroy⟩] 700000 0 World.init = some ex ∧
      ex.result = .error (.runtime_error "allocation failed!") ∧
      ex.sumSize < 200 * 1024 * 1024 ∧
      ex.world = ⟨World.init.trace ++ new, World.init.out⟩ ∧
      new.getLast? = some ⟨.HeapAlloc 0x20000 0 AllocAtIteration, 0⟩ ∧
      successfulAllocs 0x20000 new ≤ 524288 ∧
      HeapReserveSize / AllocAtIteration = 524288 :=
  (allocLoop_reserved_exhausts .x64 osReserved ⟨0x10000, .HeapDestroy⟩
    ⟨0x20000, .Rtl_HeapDestroy⟩ World.init 700000 (by decide)).1 (by decide)
    (fun tr n h => by simp [osReserved, h])
    (fun tr n => by simp [osReserved])

/-! ## Runs of main -/

/-- Releasing a handle whose deleter is the public `HeapDestroy`. -/
theorem release_std (os : OS) (h0 : Nat) (w : World) :
    ScopedHeapHandle.release os ⟨h0, .HeapDestroy⟩ w =
      (.ok (), ⟨w.trace ++ stdDestroyEvents h0 (os w.trace (.HeapDestroy h0)), w.out⟩) := by
  unfold ScopedHeapHandle.release stdDestroyEvents
  by_cases h : h0 = 0
  · simp [h]
  · simp [h, HeapDestroyFunctor, sys]

/-- The run of `main` in stages. -/
theorem main_eq (p : Platform) (os : OS) (fuel : Nat) :
    main p os fuel =
      match Rtl.HeapCreate p os 0 0 HeapReserveSize true
          ⟨[⟨.HeapCreate 0 0 0, os [] (.HeapCreate 0 0 0)⟩], []⟩ with
      | (.error e, w) => some (raise os e [⟨os [] (.HeapCreate 0 0 0), .HeapDestroy⟩] w)
      | (.ok h1, w) =>
        match allocLoop p.arch.SIZE_BITS TestMaxAlloc AllocAtIteration os
            [⟨os [] (.HeapCreate 0 0 0), .HeapDestroy⟩, ⟨h1, .Rtl_HeapDestroy⟩] fuel 0
            ⟨w.trace ++ [⟨.getchar, os w.trace .getchar⟩],
              w.out ++ setupOut (os [] (.HeapCreate 0 0 0)) h1⟩ with
        | none => none
        | some ⟨.error e, _, w⟩ =>
          some (raise os e [⟨os [] (.HeapCreate 0 0 0), .HeapDestroy⟩, ⟨h1, .Rtl_HeapDestroy⟩] w)
        | some ⟨.ok _, _, w⟩ =>
          match destroyAll os [⟨h1, .Rtl_HeapDestroy⟩, ⟨0, .HeapDestroy⟩]
              ⟨w.trace ++ stdDestroyEvents (os [] (.HeapCreate 0 0 0))
                  (os w.trace (.HeapDestroy (os [] (.HeapCreate 0 0 0)))) ++
                [⟨.getchar, os (w.trace ++ stdDestroyEvents (os [] (.HeapCreate 0 0 0))
                  (os w.trace (.HeapDestroy (os [] (.HeapCreate 0 0 0))))) .getchar⟩],
                w.out ++ [.str "1-st heap destroyed\nPress any key to exit...\n"]⟩ with
          | (true, w) => some (.returned 0, w)
          | (false, w) => some (.terminate, w) := by
  unfold main
  simp only [sys, World.init, List.nil_append]
  split
  · rfl
  · rename_i h1 wc hc
    simp only [print, List.foldl, setupOut, List.append_assoc, List.cons_append, List.nil_append,
      List.singleton_append]
    split
    · rfl
    · rfl
    · rw [release_std]
      simp only [List.append_assoc]

/-- The destructors of the two handles, second handle first. -/
theorem destroyAll_two (os : OS) (h1 h0 : Nat) (w : World) (hh1 : h1 ≠ 0) :
    destroyAll os [⟨h1, .Rtl_HeapDestroy⟩, ⟨h0, .HeapDestroy⟩] w =
      match Rtl.HeapDestroy os h1 w with
      | (.error _, w2) => (false, w2)
      | (.ok _, w2) =>
        (true, ⟨w2.trace ++ stdDestroyEvents h0 (os w2.trace (.HeapDestroy h0)), w2.out⟩) := by
  simp only [destroyAll, ScopedHeapHandle.release, HeapDestroyFunctor, if_neg hh1]
  rcases Rtl.HeapDestroy os h1 w with ⟨r, w2⟩
  cases r with
  | error e => rfl
  | ok v =>
    simp only
    have := release_std os h0 w2
    simp only [ScopedHeapHandle.release, HeapDestroyFunctor] at this
    rw [this]

/-- Leaving `main` by `return 0`: the array is destroyed. -/
theorem return_cases (os : OS) (h1 : Nat) (wl : World) (out : Outcome) (w : World)
    (hh1 : h1 ≠ 0)
    (h : (match destroyAll os [⟨h1, .Rtl_HeapDestroy⟩, ⟨0, .HeapDestroy⟩] wl with
      | (true, w) => some (Outcome.returned 0, w)
      | (false, w) => some (Outcome.terminate, w)) = some (out, w)) :
    (out = .terminate ∧ ∃ d, failedDestroyEvents d ∧ w.trace = wl.trace ++ d) ∨
    (out = .returned 0 ∧ w.out = wl.out ∧
      ∃ n2 f2 r g, n2 ≠ 0 ∧ f2 ≠ 0 ∧ w.trace = wl.trace ++ rtlDestroyEvents n2 f2 h1 r g) := by
  rw [destroyAll_two os h1 0 wl hh1] at h
  rcases Rtl.HeapDestroy_cases os h1 wl with
    ⟨g, hd⟩ | ⟨n2, g, hn2, hd⟩ | ⟨n2, f2, r, g, hn2, hf2, hd, _⟩
  · rw [hd] at h
    simp only [Option.some.injEq, Prod.mk.injEq] at h
    obtain ⟨rfl, rfl⟩ := h
    exact Or.inl ⟨rfl, _, Or.inl ⟨g, rfl⟩, rfl⟩
  · rw [hd] at h
    simp only [Option.some.injEq, Prod.mk.injEq] at h
    obtain ⟨rfl, rfl⟩ := h
    exact Or.inl ⟨rfl, _, Or.inr ⟨n2, g, hn2, rfl⟩, rfl⟩
  · rw [hd] at h
    simp only [Option.some.injEq, Prod.mk.injEq] at h
    obtain ⟨rfl, rfl⟩ := h
    refine Or.inr ⟨rfl, rfl, n2, f2, r, g, hn2, hf2, ?_⟩
    simp [rtlDestroyEvents, stdDestroyEvents]

/-- The allocation failure leaves the try block of `main`. -/
theorem raise_cases (os : OS) (h0 h1 : Nat) (wl : World) (out : Outcome) (w : World)
    (hh1 : h1 ≠ 0)
    (h : raise os (.runtime_error "allocation failed!")
      [⟨h0, .HeapDestroy⟩, ⟨h1, .Rtl_HeapDestroy⟩] wl = (out, w)) :
    (out = .terminate ∧ w.out = wl.out ∧
      ∃ d, failedDestroyEvents d ∧ w.trace = wl.trace ++ d) ∨
    (out = .returned (-1) ∧ w.out = wl.out ++ failureOut ∧
      ∃ n2 f2 r g r0, n2 ≠ 0 ∧ f2 ≠ 0 ∧
        w.trace = wl.trace ++ rtlDestroyEvents n2 f2 h1 r g ++ stdDestroyEvents h0 r0) := by
  simp only [raise, handlers, List.reverse_cons, List.reverse_nil, List.nil_append,
    List.singleton_append, destroyAll_two os h1 h0 wl hh1] at h
  rcases Rtl.HeapDestroy_cases os h1 wl with
    ⟨g, hd⟩ | ⟨n2, g, hn2, hd⟩ | ⟨n2, f2, r, g, hn2, hf2, hd, _⟩
  · rw [hd] at h
    simp only [Prod.mk.injEq] at h
    obtain ⟨rfl, rfl⟩ := h
    exact Or.inl ⟨rfl, rfl, _, Or.inl ⟨g, rfl⟩, rfl⟩
  · rw [hd] at h
    simp only [Prod.mk.injEq] at h
    obtain ⟨rfl, rfl⟩ := h
    exact Or.inl ⟨rfl, rfl, _, Or.inr ⟨n2, g, hn2, rfl⟩, rfl⟩
  · rw [hd] at h
    simp only [Prod.mk.injEq] at h
    obtain ⟨rfl, rfl⟩ := h
    exact Or.inr ⟨rfl, by simp [print, failureOut], n2, f2, r, g, _, hn2, hf2, rfl⟩

/-- Every way a run of `main` can end, with the events it has made. -/
theorem main_cases (p : Platform) (os : OS) (fuel : Nat) (out : Outcome) (w : World)
    (h : main p os fuel = some (out, w)) :
    ∃ h0,
      (out = .terminate ∧ w.out = [] ∧
        ∃ d, w.trace = ⟨.HeapCreate 0 0 0, h0⟩ :: d ∧ ∀ e ∈ d, e.isAlloc = false) ∨
      ∃ n f h1 c k good tail, n ≠ 0 ∧ f ≠ 0 ∧ h1 ≠ 0 ∧
        CompleteRounds h0 h1 AllocAtIteration k good ∧
        ((failedRound h0 h1 AllocAtIteration tail ∧
            ((out = .terminate ∧ w.out = setupOut h0 h1 ∧
                ∃ d, failedDestroyEvents d ∧
                  w.trace = setupEvents p h0 n f h1 c ++ good ++ tail ++ d) ∨
              (out = .returned (-1) ∧ w.out = setupOut h0 h1 ++ failureOut ∧
                ∃ n2 f2 r g r0, n2 ≠ 0 ∧ f2 ≠ 0 ∧
                  w.trace = setupEvents p h0 n f h1 c ++ good ++ tail ++
                    rtlDestroyEvents n2 f2 h1 r g ++ stdDestroyEvents h0 r0))) ∨
          (tail = [] ∧ TestMaxAlloc ≤ k * AllocAtIteration ∧
            ((out = .terminate ∧
                ∃ r0 c2 d, failedDestroyEvents d ∧
                  w.trace = setupEvents p h0 n f h1 c ++ good ++ stdDestroyEvents h0 r0 ++
                    [⟨.getchar, c2⟩] ++ d) ∨
              (out = .returned 0 ∧
                w.out = setupOut h0 h1 ++
                  [.str "1-st heap destroyed\nPress any key to exit...\n"] ∧
                ∃ r0 c2 n2 f2 r g, n2 ≠ 0 ∧ f2 ≠ 0 ∧
                  w.trace = setupEvents p h0 n f h1 c ++ good ++ stdDestroyEvents h0 r0 ++
                    [⟨.getchar, c2⟩] ++ rtlDestroyEvents n2 f2 h1 r g)))) := by
  refine ⟨os [] (.HeapCreate 0 0 0), ?_⟩
  rw [main_eq] at h
  have hwrap : TestMaxAlloc + AllocAtIteration ≤ 2 ^ p.arch.SIZE_BITS := by
    cases p.arch <;> decide
  rcases Rtl.HeapCreate_cases p os 0 0 HeapReserveSize true
      ⟨[⟨.HeapCreate 0 0 0, os [] (.HeapCreate 0 0 0)⟩], []⟩ with
    ⟨g, hc⟩ | ⟨n, g, _, hc⟩ | ⟨n, f, g, _, _, hc⟩ | ⟨n, f, h1, hn, hf, hh1, hc⟩
  · left
    rw [hc] at h
    simp only [raise, handlers, Option.some.injEq, Prod.mk.injEq] at h
    obtain ⟨rfl, rfl⟩ := h
    exact ⟨rfl, rfl, _, rfl, by simp [Event.isAlloc]⟩
  · left
    rw [hc] at h
    simp only [raise, handlers, Option.some.injEq, Prod.mk.injEq] at h
    obtain ⟨rfl, rfl⟩ := h
    exact ⟨rfl, rfl, _, rfl, by simp [Event.isAlloc]⟩
  · left
    rw [hc] at h
    simp only [raise, handlers, Option.some.injEq, Prod.mk.injEq] at h
    obtain ⟨rfl, rfl⟩ := h
    exact ⟨rfl, rfl, _, rfl, by simp [Event.isAlloc]⟩
  · right
    rw [hc] at h
    simp only [List.singleton_append, List.nil_append] at h
    generalize hcdef : os [⟨.HeapCreate 0 0 0, os [] (.HeapCreate 0 0 0)⟩,
          ⟨.GetModuleHandleW_ntdll, n⟩, ⟨.GetProcAddress n .RtlCreateHeap, f⟩,
          ⟨.RtlCreateHeap (Rtl.HeapCreate.flags p 0 true) 0 HeapReserveSize 0 0 0, h1⟩]
          .getchar = c at h
    have hsetup : [⟨.HeapCreate 0 0 0, os [] (.HeapCreate 0 0 0)⟩,
          ⟨.GetModuleHandleW_ntdll, n⟩, ⟨.GetProcAddress n .RtlCreateHeap, f⟩,
          ⟨.RtlCreateHeap (Rtl.HeapCreate.flags p 0 true) 0 HeapReserveSize 0 0 0, h1⟩] ++
          [⟨.getchar, c⟩] = setupEvents p (os [] (.HeapCreate 0 0 0)) n f h1 c := rfl
    rw [hsetup] at h
    generalize os [] (.HeapCreate 0 0 0) = h0 at h ⊢
    rcases hL : allocLoop p.arch.SIZE_BITS TestMaxAlloc AllocAtIteration os
        [⟨h0, .HeapDestroy⟩, ⟨h1, .Rtl_HeapDestroy⟩] fuel 0
        ⟨setupEvents p h0 n f h1 c, setupOut h0 h1⟩ with _ | ex
    · rw [hL] at h
      simp at h
    · rw [hL] at h
      obtain ⟨k, good, tail, hgood, hworld, hsum, hcons, hlt, hres⟩ :=
        allocLoop_spec _ _ _ os _ _ hwrap _ _ _ _ hL
      obtain ⟨res, sz, wl⟩ := ex
      simp only at hworld hres hsum
      subst hworld
      refine ⟨n, f, h1, c, k, good, tail, hn, hf, hh1, hgood, ?_⟩
      rcases hres with ⟨hr, htail, hT⟩ | ⟨hr, _, htail⟩
      · right
        subst hr htail
        refine ⟨rfl, by simpa using hT, ?_⟩
        simp only [List.append_nil] at h
        generalize os _ (Call.HeapDestroy h0) = r0 at h
        generalize os _ Call.getchar = c2 at h
        rcases return_cases os h1 _ out w hh1 h with
          ⟨ho, d, hd, ht⟩ | ⟨ho, hout, n2, f2, r, g, hn2, hf2, ht⟩
        · exact Or.inl ⟨ho, r0, c2, d, hd, by simp [ht]⟩
        · exact Or.inr ⟨ho, by rw [hout], r0, c2, n2, f2, r, g, hn2, hf2, by simp [ht]⟩
      · left
        subst hr
        refine ⟨htail, ?_⟩
        simp only [Option.some.injEq] at h
        rcases raise_cases os h0 h1 _ out w hh1 h with
          ⟨ho, hout, d, hd, ht⟩ | ⟨ho, hout, n2, f2, r, g, r0, hn2, hf2, ht⟩
        · exact Or.inl ⟨ho, by rw [hout], d, hd, by rw [ht]; simp⟩
        · exact Or.inr ⟨ho, by rw [hout], n2, f2, r, g, r0, hn2, hf2, by rw [ht]; simp⟩

/-- C3, at the failing input: the public `HeapCreate(0, 0, 0)` returns null
and nothing is thrown for it.  `main` goes on to create the reserved heap,
prints the null handle, and requests an allocation on the null handle; the
only exception of the run is the allocation failure. -/
theorem main_null_standard_heap :
    main winnt osNoStdHeap 1 = some (.returned (-1),
      ⟨[⟨.HeapCreate 0 0 0, 0⟩, ⟨.GetModuleHandleW_ntdll, 0x7FF0⟩,
          ⟨.GetProcAddress 0x7FF0 .RtlCreateHeap, 0x7FF1⟩,
          ⟨.RtlCreateHeap 0x1002 0 157286400 0 0 0, 0x20000⟩, ⟨.getchar, 10⟩,
          ⟨.HeapAlloc 0 0 300, 0⟩,
          ⟨.GetModuleHandleW_ntdll, 0x7FF0⟩, ⟨.GetProcAddress 0x7FF0 .RtlDestroyHeap, 0x7FF2⟩,
          ⟨.RtlDestroyHeap 0x20000, 1⟩, ⟨.GetLastError, 0⟩],
        [.str "Heaps:\n", .str "\t> HEAP: ", .ptr 0, .str "\n", .str "\t> HEAP: ",
          .ptr 0x20000, .str "\n", .str "All heaps created\nPress any key...\n",
          .str "Exception occurred:\n", .str "allocation failed!", .str "\n"]⟩) := by
  decide

/-- C5, at the failing input: the creation routine returns null and
`Rtl::HeapCreate` throws the last error 8 as a `DWORD`.  No handler of `main`
matches it, the handler for `int` would have: nothing is printed, `main` does
not return, `std::terminate` is called. -/
theorem main_os_error_uncaught :
    (∀ fuel, main winnt osNoReservedHeap fuel = some (.terminate,
      ⟨[⟨.HeapCreate 0 0 0, 0x10000⟩, ⟨.GetModuleHandleW_ntdll, 0x7FF0⟩,
          ⟨.GetProcAddress 0x7FF0 .RtlCreateHeap, 0x7FF1⟩,
          ⟨.RtlCreateHeap 0x1002 0 157286400 0 0 0, 0⟩, ⟨.GetLastError, 8⟩],
        []⟩)) ∧
    handlers (.dword 8) World.init = none ∧
    handlers (.int 8) World.init =
      some (-1, ⟨[], [.str "Exception occurred: GLE: ", .int 8, .str "\n"]⟩) := by
  refine ⟨fun fuel => ?_, rfl, rfl⟩
  rfl

theorem setupEvents_kinds (p : Platform) (h0 n f h1 c : Nat) (e : Event)
    (he : e ∈ setupEvents p h0 n f h1 c) : e.isAlloc = false ∧ e.isDestroy = false := by
  simp only [setupEvents, List.mem_cons, List.mem_singleton, List.not_mem_nil, or_false] at he
  rcases he with rfl | rfl | rfl | rfl | rfl <;> exact ⟨rfl, rfl⟩

theorem CompleteRounds_kinds (h0 h1 B k : Nat) (good : List Event)
    (hg : CompleteRounds h0 h1 B k good) (e : Event) (he : e ∈ good) :
    e.isAlloc = true ∧ e.isDestroy = false ∧ e.ret ≠ 0 := by
  rcases CompleteRounds_calls h0 h1 B k good hg e he with h | h
  · exact ⟨by simp [Event.isAlloc, h], by simp [Event.isDestroy, h], hg.2 e he⟩
  · exact ⟨by simp [Event.isAlloc, h], by simp [Event.isDestroy, h], hg.2 e he⟩

theorem isDestroyOf_of_not_destroy (e : Event) (h : Nat) (he : e.isDestroy = false) :
    e.isDestroyOf h = false := by
  unfold Event.isDestroy at he
  unfold Event.isDestroyOf
  split <;> simp_all

theorem failedRound_kinds (h0 h1 B : Nat) (tail : List Event) (ht : failedRound h0 h1 B tail)
    (e : Event) (he : e ∈ tail) : e.isAlloc = true ∧ e.isDestroy = false := by
  rcases ht with rfl | ⟨r, _, rfl⟩
  · simp only [List.mem_singleton] at he
    subst he
    exact ⟨rfl, rfl⟩
  · simp only [List.mem_cons, List.mem_singleton, List.not_mem_nil, or_false] at he
    rcases he with rfl | rfl <;> exact ⟨rfl, rfl⟩

/-- Events that are no destroy calls in front of a trace do not matter for
use after destroy. -/
theorem noUseAfterDestroy_skip (a b : List Event) (ha : ∀ e ∈ a, e.isDestroy = false) :
    noUseAfterDestroy (a ++ b) = noUseAfterDestroy b := by
  induction a with
  | nil => rfl
  | cons e rest ih =>
    have he := ha e (List.mem_cons_self _ _)
    have ih2 := ih (fun x hx => ha x (List.mem_cons_of_mem _ hx))
    rw [List.cons_append]
    simp only [noUseAfterDestroy]
    rw [ih2]
    unfold Event.isDestroy at he
    split <;> simp_all

theorem filter_isDestroyOf_nil (l : List Event) (h : Nat) (hl : ∀ e ∈ l, e.isDestroy = false) :
    l.filter (Event.isDestroyOf h) = [] := by
  rw [List.filter_eq_nil_iff]
  intro e he
  rw [isDestroyOf_of_not_destroy e h (hl e he)]
  simp

/-- C9: in every run of `main` in which both heaps are created, with distinct
handles, and which ends by returning 0 or by returning -1 (the caught
allocation failure), the destroy calls on the first handle are exactly one
public `HeapDestroy`, the destroy calls on the second handle are exactly one
call of the lower-level routine, made by `Rtl::HeapDestroy`, and no allocation
or destroy call is made on a handle after a destroy call on it. -/
theorem main_destroys_each_heap_once (p : Platform) (os : OS) (fuel : Nat)
    (out : Outcome) (w : World) (h0 h1 : Nat)
    (hrun : main p os fuel = some (out, w))
    (hend : out = .returned 0 ∨ out = .returned (-1))
    (hc0 : (⟨.HeapCreate 0 0 0, h0⟩ : Event) ∈ w.trace) (hh0 : h0 ≠ 0)
    (hc1 : ∃ e ∈ w.trace, e.isRtlCreateHeap = true ∧ e.ret = h1) (hh1 : h1 ≠ 0)
    (hne : h0 ≠ h1) :
    (∃ r, w.trace.filter (Event.isDestroyOf h0) = [⟨.HeapDestroy h0, r⟩]) ∧
    (∃ r, w.trace.filter (Event.isDestroyOf h1) = [⟨.RtlDestroyHeap h1, r⟩]) ∧
    (∃ ntdll fn r gle, rtlDestroyEvents ntdll fn h1 r gle <:+: w.trace) ∧
    noUseAfterDestroy w.trace = true := by
  obtain ⟨a0, hA | ⟨n, f, a1, c, k, good, tail, hn, hf, _, hgood, hB⟩⟩ :=
    main_cases p os fuel out w hrun
  · exfalso
    rcases hend with h | h <;> rw [hA.1] at h <;> cases h
  · have hab : (h1 == h0) = false := by simpa using Ne.symm hne
    have hba : (h0 == h1) = false := by simpa using hne
    have hgoodk := CompleteRounds_kinds _ _ _ _ _ hgood
    rcases hB with ⟨htail, hT | hR⟩ | ⟨rfl, _, hT | hR⟩
    · exfalso
      rcases hend with h | h <;> rw [hT.1] at h <;> cases h
    · obtain ⟨_, _, n2, f2, r, g, r0, _, _, ht⟩ := hR
      have htailk := failedRound_kinds _ _ _ tail htail
      have e0 : a0 = h0 := by
        rw [ht] at hc0
        simp only [List.mem_append] at hc0
        rcases hc0 with (((he | he) | he) | he) | he
        · simp [setupEvents] at he
          exact he.symm
        · have := (hgoodk _ he).1
          cases this
        · have := (htailk _ he).1
          cases this
        · simp [rtlDestroyEvents] at he
        · unfold stdDestroyEvents at he
          split_ifs at he <;> simp at he
      have e1 : a1 = h1 := by
        obtain ⟨e, he, hk, hr⟩ := hc1
        rw [ht] at he
        simp only [List.mem_append] at he
        rcases he with (((he | he) | he) | he) | he
        · simp only [setupEvents, List.mem_cons, List.mem_singleton, List.not_mem_nil,
            or_false] at he
          rcases he with rfl | rfl | rfl | rfl | rfl <;>
            first | (exact hr) | (simp [Event.isRtlCreateHeap] at hk)
        · have := (hgoodk _ he).1
          unfold Event.isAlloc at this
          unfold Event.isRtlCreateHeap at hk
          split at this <;> simp_all
        · have := (htailk _ he).1
          unfold Event.isAlloc at this
          unfold Event.isRtlCreateHeap at hk
          split at this <;> simp_all
        · simp only [rtlDestroyEvents, List.mem_cons, List.mem_singleton, List.not_mem_nil,
            or_false] at he
          rcases he with rfl | rfl | rfl | rfl <;> simp [Event.isRtlCreateHeap] at hk
        · unfold stdDestroyEvents at he
          split_ifs at he
          · simp at he
          · simp only [List.mem_singleton] at he
            subst he
            simp [Event.isRtlCreateHeap] at hk
      subst e0 e1
      have hs := fun h => filter_isDestroyOf_nil (setupEvents p a0 n f a1 c) h
        (fun e he => (setupEvents_kinds _ _ _ _ _ _ e he).2)
      have hg := fun h => filter_isDestroyOf_nil good h (fun e he => (hgoodk e he).2.1)
      have htl := fun h => filter_isDestroyOf_nil tail h (fun e he => (htailk e he).2)
      refine ⟨⟨r0, ?_⟩, ⟨r, ?_⟩, ⟨n2, f2, r, g, ?_⟩, ?_⟩
      · rw [ht]
        simp only [List.filter_append, hs, hg, htl, List.nil_append]
        simp [rtlDestroyEvents, stdDestroyEvents, hh0, List.filter_cons, Event.isDestroyOf, hab]
      · rw [ht]
        simp only [List.filter_append, hs, hg, htl, List.nil_append]
        simp [rtlDestroyEvents, stdDestroyEvents, hh0, List.filter_cons, Event.isDestroyOf, hba]
      · rw [ht]
        exact ⟨setupEvents p a0 n f a1 c ++ good ++ tail, stdDestroyEvents a0 r0, rfl⟩
      · rw [ht]
        have hpre : ∀ e ∈ setupEvents p a0 n f a1 c ++ good ++ tail, e.isDestroy = false := by
          intro e he
          simp only [List.mem_append] at he
          rcases he with (he | he) | he
          · exact (setupEvents_kinds _ _ _ _ _ _ e he).2
          · exact (hgoodk e he).2.1
          · exact (htailk e he).2
        rw [List.append_assoc _ (rtlDestroyEvents n2 f2 a1 r g), noUseAfterDestroy_skip _ _ hpre]
        simp [rtlDestroyEvents, stdDestroyEvents, hh0, noUseAfterDestroy, Event.isAllocOn,
          Event.isDestroyOf, hab, hba]
    · exfalso
      rcases hend with h | h <;> rw [hT.1] at h <;> cases h
    · obtain ⟨_, _, r0, c2, n2, f2, r, g, _, _, ht⟩ := hR
      have e0 : a0 = h0 := by
        rw [ht] at hc0
        simp only [List.mem_append, List.mem_singleton] at hc0
        rcases hc0 with (((he | he) | he) | he) | he
        · simp [setupEvents] at he
          exact he.symm
        · have := (hgoodk _ he).1
          cases this
        · unfold stdDestroyEvents at he
          split_ifs at he <;> simp at he
        · simp at he
        · simp [rtlDestroyEvents] at he
      have e1 : a1 = h1 := by
        obtain ⟨e, he, hk, hr⟩ := hc1
        rw [ht] at he
        simp only [List.mem_append, List.mem_singleton] at he
        rcases he with (((he | he) | he) | he) | he
        · simp only [setupEvents, List.mem_cons, List.mem_singleton, List.not_mem_nil,
            or_false] at he
          rcases he with rfl | rfl | rfl | rfl | rfl <;>
            first | (exact hr) | (simp [Event.isRtlCreateHeap] at hk)
        · have := (hgoodk _ he).1
          unfold Event.isAlloc at this
          unfold Event.isRtlCreateHeap at hk
          split at this <;> simp_all
        · unfold stdDestroyEvents at he
          split_ifs at he
          · simp at he
          · simp only [List.mem_singleton] at he
            subst he
            simp [Event.isRtlCreateHeap] at hk
        · subst he
          simp [Event.isRtlCreateHeap] at hk
        · simp only [rtlDestroyEvents, List.mem_cons, List.mem_singleton, List.not_mem_nil,
            or_false] at he
          rcases he with rfl | rfl | rfl | rfl <;> simp [Event.isRtlCreateHeap] at hk
      subst e0 e1
      have hs := fun h => filter_isDestroyOf_nil (setupEvents p a0 n f a1 c) h
        (fun e he => (setupEvents_kinds _ _ _ _ _ _ e he).2)
      have hg := fun h => filter_isDestroyOf_nil good h (fun e he => (hgoodk e he).2.1)
      refine ⟨⟨r0, ?_⟩, ⟨r, ?_⟩, ⟨n2, f2, r, g, ?_⟩, ?_⟩
      · rw [ht]
        simp only [List.filter_append, hs, hg, List.nil_append]
        simp [rtlDestroyEvents, stdDestroyEvents, hh0, List.filter_cons, Event.isDestroyOf, hab]
      · rw [ht]
        simp only [List.filter_append, hs, hg, List.nil_append]
        simp [rtlDestroyEvents, stdDestroyEvents, hh0, List.filter_cons, Event.isDestroyOf, hba]
      · rw [ht]
        exact ⟨setupEvents p a0 n f a1 c ++ good ++ [] ++ stdDestroyEvents a0 r0 ++
          [⟨.getchar, c2⟩], [], by simp⟩
      · rw [ht]
        have hpre : ∀ e ∈ setupEvents p a0 n f a1 c ++ good, e.isDestroy = false := by
          intro e he
          simp only [List.mem_append] at he
          rcases he with he | he
          · exact (setupEvents_kinds _ _ _ _ _ _ e he).2
          · exact (hgoodk e he).2.1
        have e : setupEvents p a0 n f a1 c ++ good ++ stdDestroyEvents a0 r0 ++
            [⟨.getchar, c2⟩] ++ rtlDestroyEvents n2 f2 a1 r g =
            (setupEvents p a0 n f a1 c ++ good) ++ (stdDestroyEvents a0 r0 ++
              ([⟨.getchar, c2⟩] ++ rtlDestroyEvents n2 f2 a1 r g)) := by
          simp only [List.append_assoc]
        rw [e, noUseAfterDestroy_skip _ _ hpre]
        simp [rtlDestroyEvents, stdDestroyEvents, hh0, noUseAfterDestroy, Event.isAllocOn,
          Event.isDestroyOf, hab, hba]

/-- Witness for C9: the run on the system in which every allocation fails,
with heaps `0x10000` and `0x20000`; it ends through the caught allocation
failure. -/
theorem main_destroys_each_heap_once_witness :
    (∃ r, allocFailsWorld.trace.filter (Event.isDestroyOf 0x10000) =
      [⟨.HeapDestroy 0x10000, r⟩]) ∧
    (∃ r, allocFailsWorld.trace.filter (Event.isDestroyOf 0x20000) =
      [⟨.RtlDestroyHeap 0x20000, r⟩]) ∧
    (∃ ntdll fn r gle, rtlDestroyEvents ntdll fn 0x20000 r gle <:+: allocFailsWorld.trace) ∧
    noUseAfterDestroy allocFailsWorld.trace = true :=
  main_destroys_each_heap_once winnt osAllocFails 1 (.returned (-1)) allocFailsWorld
    0x10000 0x20000 (by decide) (Or.inr rfl) (by decide) (by decide)
    ⟨⟨.RtlCreateHeap 0x1002 0 157286400 0 0 0, 0x20000⟩, by decide, by decide, by decide⟩
    (by decide) (by decide)

end HeapReserve
